import Mathlib

set_option maxRecDepth 100000
set_option maxHeartbeats 1000000

/-!
# zvault — formal verification of the TUI controller spec

Shallow embedding of the zvault repository's core logic (TOTP generator,
relative-date grammar, task sorting, list filter cycling, detail-view
masking, unlock/form/root controllers) with theorems settling the frozen
claims C1–C10.

Machine integers are modelled as `Nat`/`Int` with explicit `% 2^w` where Go
overflow semantics matter; Go maps are association lists with empty-string
default reads; Go's package-level clock and randomness are explicit
parameters; terminal styling (`lipgloss.Render`) is the identity on the
rendered text.
-/

namespace ZVault

/-! ## Byte-level primitives (internal/totp/totp.go) -/

/-- 32-bit truncation, mirroring Go `uint32` arithmetic. -/
def mask32 (x : Nat) : Nat := x % 4294967296

/-- Left-rotate a 32-bit word by `n` bits. -/
def rotl32 (x n : Nat) : Nat :=
  mask32 ((x <<< n) ||| (x >>> (32 - n)))

/-- 32-bit addition modulo 2^32. -/
def add32 (a b : Nat) : Nat := mask32 (a + b)

/-- 32-bit complement (Go `^x` on `uint32`). -/
def not32 (x : Nat) : Nat := 4294967295 - x

/-- Big-endian serialisation of a 32-bit word to four bytes
(`binary.BigEndian.PutUint32`). -/
def putUint32BE (x : Nat) : List Nat :=
  [(x >>> 24) % 256, (x >>> 16) % 256, (x >>> 8) % 256, x % 256]

/-- Big-endian serialisation of a 64-bit word to eight bytes
(`binary.BigEndian.PutUint64` on the HOTP counter). -/
def putUint64BE (x : Nat) : List Nat :=
  [(x >>> 56) % 256, (x >>> 48) % 256, (x >>> 40) % 256, (x >>> 32) % 256,
   (x >>> 24) % 256, (x >>> 16) % 256, (x >>> 8) % 256, x % 256]

/-- Big-endian read of four bytes as a 32-bit word (`binary.BigEndian.Uint32`). -/
def beUint32 : List Nat → Nat
  | a :: b :: c :: d :: _ => ((a * 256 + b) * 256 + c) * 256 + d
  | _ => 0

/-! ## SHA-1 (crypto/sha1, as used by `hmac.New(sha1.New, key)`) -/

/-- One word of the SHA-1 message schedule:
`w[i] = rotl1 (w[i-3] xor w[i-8] xor w[i-14] xor w[i-16])`.
`ws` is the schedule built so far (length ≥ 16). -/
def sha1NextWord (ws : List Nat) : Nat :=
  let n := ws.length
  rotl32 ((ws.getD (n - 3) 0) ^^^ (ws.getD (n - 8) 0) ^^^
          (ws.getD (n - 14) 0) ^^^ (ws.getD (n - 16) 0)) 1

/-- Extend a 16-word block to the 80-word schedule (fuel-driven). -/
def sha1Extend : Nat → List Nat → List Nat
  | 0, ws => ws
  | n + 1, ws => sha1Extend n (ws ++ [sha1NextWord ws])

/-- SHA-1 working state: the five 32-bit registers a, b, c, d, e. -/
structure Sha1State where
  a : Nat
  b : Nat
  c : Nat
  d : Nat
  e : Nat
deriving Repr, DecidableEq

/-- The SHA-1 round function and constant for round `i` (0 ≤ i < 80). -/
def sha1FK (i : Nat) (b c d : Nat) : Nat × Nat :=
  if i < 20 then ((b &&& c) ||| (not32 b &&& d), 0x5A827999)
  else if i < 40 then (b ^^^ c ^^^ d, 0x6ED9EBA1)
  else if i < 60 then ((b &&& c) ||| (b &&& d) ||| (c &&& d), 0x8F1BBCDC)
  else (b ^^^ c ^^^ d, 0xCA62C1D6)

/-- One SHA-1 round: rotate the registers through the round function. -/
def sha1Round (st : Sha1State) (iw : Nat × Nat) : Sha1State :=
  let (f, k) := sha1FK iw.1 st.b st.c st.d
  let t := mask32 (rotl32 st.a 5 + f + st.e + k + iw.2)
  ⟨t, st.a, rotl32 st.b 30, st.c, st.d⟩

/-- Compress one 64-byte block into the running digest. -/
def sha1Compress (h : Sha1State) (block : List Nat) : Sha1State :=
  let ws16 := (List.range 16).map fun i =>
    beUint32 ((block.drop (4 * i)).take 4)
  let ws := sha1Extend 64 ws16
  let st := (((List.range 80).zip ws).foldl sha1Round h)
  ⟨add32 h.a st.a, add32 h.b st.b, add32 h.c st.c, add32 h.d st.d, add32 h.e st.e⟩

/-- SHA-1 padding: append `0x80`, zeros to 56 mod 64, then the bit length
as a 64-bit big-endian integer. -/
def sha1Pad (msg : List Nat) : List Nat :=
  let k := (119 - msg.length % 64) % 64
  msg ++ [0x80] ++ List.replicate k 0 ++ putUint64BE (msg.length * 8)

/-- Split a byte list into 64-byte chunks (fuel-driven on the length). -/
def chunks64Aux : Nat → List Nat → List (List Nat)
  | 0, _ => []
  | _, [] => []
  | n + 1, l => l.take 64 :: chunks64Aux n (l.drop 64)

def chunks64 (l : List Nat) : List (List Nat) := chunks64Aux l.length l

/-- The SHA-1 initial digest state. -/
def sha1Init : Sha1State :=
  ⟨0x67452301, 0xEFCDAB89, 0x98BADCFE, 0x10325476, 0xC3D2E1F0⟩

/-- SHA-1 of a byte string, as a 20-byte digest. -/
def sha1 (msg : List Nat) : List Nat :=
  let h := (chunks64 (sha1Pad msg)).foldl sha1Compress sha1Init
  putUint32BE h.a ++ putUint32BE h.b ++ putUint32BE h.c ++
    putUint32BE h.d ++ putUint32BE h.e

/-! ## HMAC-SHA1 (crypto/hmac) -/

/-- HMAC-SHA1 (`hmac.New(sha1.New, key)` followed by `Write`/`Sum`):
keys longer than the 64-byte block are hashed first, the key is zero-padded
to the block size, and the digest is
`H((k ⊕ opad) ∥ H((k ⊕ ipad) ∥ msg))`. -/
def hmacSha1 (key msg : List Nat) : List Nat :=
  let k0 := if 64 < key.length then sha1 key else key
  let kp := k0 ++ List.replicate (64 - k0.length) 0
  sha1 ((kp.map (· ^^^ 0x5c)) ++ sha1 ((kp.map (· ^^^ 0x36)) ++ msg))

/-! ## Base32 (encoding/base32 `StdEncoding.DecodeString`) -/

/-- Value of one character of the standard base32 alphabet `A..Z2..7`. -/
def b32Val (c : Char) : Option Nat :=
  if 'A' ≤ c ∧ c ≤ 'Z' then some (c.toNat - 65)
  else if '2' ≤ c ∧ c ≤ '7' then some (c.toNat - 24)
  else none

/-- Longest run of non-padding characters at the front of a group. -/
def b32DataSpan : List Char → List Char
  | [] => []
  | c :: cs => if c = '=' then [] else c :: b32DataSpan cs

/-- Number of output bytes of a final base32 group with `dlen` data
characters; `none` for the invalid lengths 1, 3 and 6 (and > 8). -/
def b32OutBytes : Nat → Option Nat
  | 2 => some 1
  | 4 => some 2
  | 5 => some 3
  | 7 => some 4
  | 8 => some 5
  | _ => none

/-- Decode one 8-character group. The data characters' 5-bit values are
packed big-endian into 40 bits and the leading whole bytes are kept,
matching Go's `encoding/base32` (which ignores leftover bits). -/
def b32DecodeGroup (g : List Char) : Option (List Nat) := do
  let data := b32DataSpan g
  -- anything after the first '=' must be '=' as well
  if (g.drop data.length).all (· = '=') then
    let n ← b32OutBytes data.length
    let vals ← data.mapM b32Val
    let packed := (vals.foldl (fun acc v => acc * 32 + v) 0) <<< (40 - 5 * data.length)
    pure (((List.range 5).map fun i => (packed >>> (8 * (4 - i))) % 256).take n)
  else none

/-- Decode a sequence of 8-character groups; a group containing padding
must be the last one. -/
def b32DecodeGroups : List (List Char) → Option (List Nat)
  | [] => some []
  | g :: gs => do
    let bytes ← b32DecodeGroup g
    if g.contains '=' ∧ gs ≠ [] then none
    else do
      let rest ← b32DecodeGroups gs
      pure (bytes ++ rest)

/-- Split into 8-character groups (fuel-driven on the length). -/
def groups8Aux : Nat → List Char → List (List Char)
  | 0, _ => []
  | _, [] => []
  | n + 1, l => l.take 8 :: groups8Aux n (l.drop 8)

/-- `base32.StdEncoding.DecodeString`: carriage returns and newlines are
ignored, the remainder must be whole 8-character groups, padding is only
valid in the final group. `none` models the decode error. -/
def base32Decode (s : String) : Option (List Nat) :=
  let cs := s.data.filter fun c => c ≠ '\r' ∧ c ≠ '\n'
  if cs.length % 8 = 0 then b32DecodeGroups (groups8Aux cs.length cs)
  else none

/-! ## TOTP (internal/totp/totp.go) -/

/-- `period` and `digits` constants from totp.go. -/
def period : Nat := 30
def digits : Nat := 6

/-- `decodeSecret`: strip spaces, uppercase, pad with '=' to a multiple of
8 characters, then base32-decode. (Go's `strings.ToUpper` is modelled by
the ASCII `Char.toUpper`; the base32 alphabet is ASCII, so a character on
which the two differ is rejected by the decoder either way.) -/
def decodeSecret (s : String) : Option (List Nat) :=
  let cs := (s.data.filter (· ≠ ' ')).map Char.toUpper
  let cs := if cs.length % 8 = 0 then cs
            else cs ++ List.replicate (8 - cs.length % 8) '='
  base32Decode (String.mk cs)

/-- `fmt.Sprintf("%0*d", digits, n)`: decimal with leading zeros to 6. -/
def zeroPad6 (n : Nat) : String :=
  let s := toString n
  String.mk (List.replicate (digits - s.length) '0') ++ s

/-- `hotp` (RFC 4226): HMAC-SHA1 of the 8-byte big-endian counter,
dynamic truncation, low 6 decimal digits zero-padded. -/
def hotp (key : List Nat) (counter : Nat) : String :=
  let sum := hmacSha1 key (putUint64BE counter)
  let offset := (sum.getD (sum.length - 1) 0) &&& 0x0f
  let code := (beUint32 ((sum.drop offset).take 4)) &&& 0x7fffffff
  zeroPad6 (code % 1000000)

/-- `Generate`: the package clock `now` is the explicit parameter `t`
(seconds since the Unix epoch, non-negative). Returns the code and the
seconds remaining in the current period, or `none` on a decode error —
before any HMAC work, exactly as in the source. -/
def generate (t : Nat) (secret : String) : Option (String × Nat) :=
  match decodeSecret secret with
  | none => none
  | some key =>
    let counter := t / period
    let remaining := period - t % period
    some (hotp key counter, remaining)

/-- Modelled from the spec: the claim C1 reads "strips whitespace"; this
variant strips every ASCII whitespace character (space, tab, newline,
carriage return, vertical tab, form feed) before uppercasing and padding,
for comparison with `decodeSecret`, which strips only spaces. -/
def isWhitespace (c : Char) : Bool :=
  c = ' ' ∨ c = '\t' ∨ c = '\n' ∨ c = '\r' ∨ c = '\x0b' ∨ c = '\x0c'

/-- Modelled from the spec: `Generate` per the claim's wording, with full
whitespace stripping in place of the source's space-only stripping. -/
def generateSpecWhitespace (t : Nat) (secret : String) : Option (String × Nat) :=
  let cs := (secret.data.filter (fun c => ¬ isWhitespace c)).map Char.toUpper
  let cs := if cs.length % 8 = 0 then cs
            else cs ++ List.replicate (8 - cs.length % 8) '='
  match base32Decode (String.mk cs) with
  | none => none
  | some key => some (hotp key (t / period), period - t % period)

/-! ## Civil dates (package `internal/dates`, file dates.go)

`time.Time` values in this program are civil dates at local midnight: every
producer (`time.Date(Y, M, D, 0, 0, 0, 0, loc)`, `AddDate`, parsing layout
"2006-01-02") yields midnight, and every consumer first truncates to
midnight. A date is modelled as a year/month/day triple in the common era;
`time.Time` subtraction `int(target.Sub(today).Hours() / 24)` between two
midnights is the exact difference of their epoch-day numbers. -/

structure Date where
  y : Nat
  m : Nat
  d : Nat
deriving Repr, DecidableEq

/-- Gregorian leap year. -/
def isLeap (y : Nat) : Bool := y % 4 = 0 ∧ (y % 100 ≠ 0 ∨ y % 400 = 0)

/-- Days in a month of the proleptic Gregorian calendar. -/
def daysInMonth (y m : Nat) : Nat :=
  if m = 2 then (if isLeap y then 29 else 28)
  else if m = 4 ∨ m = 6 ∨ m = 9 ∨ m = 11 then 30
  else 31

/-- Days since 1970-01-01 (the civil-from-days algorithm, years ≥ 1). -/
def toEpochDay (dt : Date) : Int :=
  let y : Nat := if dt.m ≤ 2 then dt.y - 1 else dt.y
  let era := y / 400
  let yoe := y - era * 400
  let mp := (dt.m + 9) % 12
  let doy := (153 * mp + 2) / 5 + dt.d - 1
  let doe := yoe * 365 + yoe / 4 - yoe / 100 + doy
  (era * 146097 + doe : Int) - 719468

/-- Date from days since 1970-01-01 (inverse civil algorithm, non-negative
years; all dates this program manipulates are in the common era). -/
def fromEpochDay (z : Int) : Date :=
  let zn := (z + 719468).toNat
  let era := zn / 146097
  let doe := zn % 146097
  let yoe := (doe - doe / 1460 + doe / 36524 - doe / 146096) / 365
  let y := yoe + era * 400
  let doy := doe - (365 * yoe + yoe / 4 - yoe / 100)
  let mp := (5 * doy + 2) / 153
  let d := doy - (153 * mp + 2) / 5 + 1
  let m := if mp < 10 then mp + 3 else mp - 9
  ⟨if m ≤ 2 then y + 1 else y, m, d⟩

/-- `t.AddDate(0, 0, n)`: Go normalises the overflowed day-of-month, which
for pure day offsets is exact epoch-day addition. -/
def addDays (dt : Date) (n : Int) : Date := fromEpochDay (toEpochDay dt + n)

/-- `strconv.Atoi`: optional sign followed by one or more ASCII digits. -/
def atoi (s : String) : Option Int :=
  let (sign, ds) : Int × List Char :=
    match s.data with
    | '-' :: cs => (-1, cs)
    | '+' :: cs => (1, cs)
    | cs => (1, cs)
  if ds ≠ [] ∧ ds.all Char.isDigit then
    some (sign * (ds.foldl (fun acc c => acc * 10 + (c.toNat - 48)) 0 : Nat))
  else none

/-- `time.Parse("2006-01-02", s)`: exactly four year digits, two month
digits in 1..12, two day digits within the month. -/
def parseISODate (s : String) : Option Date :=
  match s.data with
  | [y1, y2, y3, y4, '-', m1, m2, '-', d1, d2] =>
    if [y1, y2, y3, y4, m1, m2, d1, d2].all Char.isDigit then
      let num := fun (l : List Char) => l.foldl (fun acc c => acc * 10 + (c.toNat - 48)) 0
      let y := num [y1, y2, y3, y4]
      let m := num [m1, m2]
      let d := num [d1, d2]
      if 1 ≤ m ∧ m ≤ 12 ∧ 1 ≤ d ∧ d ≤ daysInMonth y m then some ⟨y, m, d⟩
      else none
    else none
  | _ => none

/-- Short month name, `time.Time.Format`'s "Jan". -/
def monthShort : Nat → String
  | 1 => "Jan" | 2 => "Feb" | 3 => "Mar" | 4 => "Apr" | 5 => "May" | 6 => "Jun"
  | 7 => "Jul" | 8 => "Aug" | 9 => "Sep" | 10 => "Oct" | 11 => "Nov" | 12 => "Dec"
  | _ => ""

/-- Whitespace for `strings.TrimSpace`. -/
def isSpaceChar (c : Char) : Bool :=
  c = ' ' ∨ c = '\t' ∨ c = '\n' ∨ c = '\r' ∨ c = '\x0b' ∨ c = '\x0c'

/-- `strings.TrimSpace` on the character list. -/
def trimSpace (cs : List Char) : List Char :=
  ((cs.dropWhile isSpaceChar).reverse.dropWhile isSpaceChar).reverse

/-- `dates.Parse` (also the line-for-line identical `parseRelativeDate` in
internal/tui/dates.go). The package clock `NowFunc` is the explicit `now`
parameter; `today` is its midnight truncation, i.e. `now` itself in this
day-granular model. Returns `ok none` for the empty string, `ok (some d)`
for a parsed date, `error msg` for a malformed input. String operations
(`TrimSpace`, `ToLower`, prefix/suffix tests) are carried out on the
character list so that every step is a computable structural recursion. -/
def datesParse (now : Date) (str : String) : Except String (Option Date) :=
  let cs := trimSpace str.data
  let s := String.mk cs
  if cs = [] then .ok none
  else
    let today := now
    let lower := cs.map Char.toLower
    if lower = "today".data then .ok (some today)
    else if lower = "tomorrow".data then .ok (some (addDays today 1))
    else if lower = "next week".data then .ok (some (addDays today 7))
    else if lower.head? = some '+' ∧ lower.getLast? = some 'd' then
      match atoi (String.mk ((lower.drop 1).dropLast)) with
      | some n => .ok (some (addDays today n))
      | none => .error ("invalid day offset: " ++ s)
    else if lower.head? = some '+' ∧ lower.getLast? = some 'w' then
      match atoi (String.mk ((lower.drop 1).dropLast)) with
      | some n => .ok (some (addDays today (n * 7)))
      | none => .error ("invalid week offset: " ++ s)
    else
      match parseISODate s with
      | some d => .ok (some d)
      | none => .error ("invalid date format: " ++ s ++
          " (use YYYY-MM-DD, tomorrow, +3d, next week)")

/-- `fmt.Sprintf("in %d days", n)` / `"overdue by %d days"` helper. -/
def natStr (n : Nat) : String := toString n

/-- `dates.FormatRelative` (also `formatRelativeDate` in internal/tui):
human-readable date relative to the clock's `today`. -/
def formatRelative (now : Date) (t : Date) : String :=
  let days : Int := toEpochDay t - toEpochDay now
  if days = 0 then "today"
  else if days = 1 then "tomorrow"
  else if days = -1 then "yesterday"
  else if 1 < days ∧ days ≤ 7 then "in " ++ natStr days.toNat ++ " days"
  else if 7 < days ∧ days ≤ 14 then "next week"
  else if 14 < days then monthShort t.m ++ " " ++ natStr t.d
  else if days < -1 then "overdue by " ++ natStr (-days).toNat ++ " days"
  else monthShort t.m ++ " " ++ natStr t.d

/-- Left-pad a number with zeros to `w` digits (`Format` "2006"/"01"/"02"). -/
def padNum (w n : Nat) : String :=
  let s := toString n
  String.mk (List.replicate (w - s.length) '0') ++ s

/-- `formatDateForEdit` / `dates.FormatForEdit`: "2006-01-02" layout for a
present due date, empty string for nil. -/
def formatDateForEdit : Option Date → String
  | none => ""
  | some t => padNum 4 t.y ++ "-" ++ padNum 2 t.m ++ "-" ++ padNum 2 t.d

/-! ## Task model (internal/task/task.go) -/

/-- `task.Priority` ("" / "low" / "medium" / "high"). -/
inductive Priority where
  | none
  | low
  | medium
  | high
deriving Repr, DecidableEq

/-- `task.Task`. Timestamps are day-granular civil dates (`Date`), which is
the granularity at which the sort comparator and the views use them; the
due date's `Equal`/`Before` comparisons become equality and `<` on the
epoch-day number. -/
structure Task where
  id : String
  title : String
  done : Bool
  priority : Priority
  dueDate : Option Int
  tags : List String
  createdAt : Int
  completedAt : Option Int
deriving Repr, DecidableEq

/-- `task.New(title)`: a fresh record. The secure-random identifier and the
package clock are the explicit `id` and `now` parameters. -/
def Task.new (id : String) (now : Int) (title : String) : Task :=
  { id := id, title := title, done := false, priority := .none,
    dueDate := none, tags := [], createdAt := now, completedAt := none }

/-- `task.FilterStatus`. -/
inductive FilterStatus where
  | all
  | pending
  | done
deriving Repr, DecidableEq

/-- `task.Filter`; the zero value (`all`-like status, no priority, empty
tag) matches everything. `priority = none` means "no priority filter"
exactly as Go's `PriorityNone` zero value does. -/
structure TaskFilter where
  status : FilterStatus
  priority : Priority
  tag : String
deriving Repr, DecidableEq

def TaskFilter.empty : TaskFilter := ⟨.all, .none, ""⟩

/-- `matchesFilter` (part of vault.TaskStore.List): conjunction of the
status, priority and tag filters. The Go zero value of `FilterStatus` is
the empty string, which like `FilterAll` matches both states; `.all`
covers both here. -/
def matchesFilter (tk : Task) (f : TaskFilter) : Bool :=
  (match f.status with
   | .pending => !tk.done
   | .done => tk.done
   | .all => true) &&
  (f.priority = .none ∨ tk.priority = f.priority) &&
  (f.tag = "" ∨ tk.tags.contains f.tag)

/-! ## Task sorting (src/unnamed/part_018, `sortTasks` / `priorityRank`) -/

/-- `priorityRank`: high 3, medium 2, low 1, none 0. -/
def priorityRank : Priority → Nat
  | .high => 3
  | .medium => 2
  | .low => 1
  | .none => 0

/-- The `less` closure passed to `sort.SliceStable` in `sortTasks`:
pending before done; then higher priority first; then sooner due date
first with nil last; equal records are not less. -/
def taskLess (a b : Task) : Bool :=
  if a.done ≠ b.done then !a.done
  else if priorityRank a.priority ≠ priorityRank b.priority then
    priorityRank b.priority < priorityRank a.priority
  else
    match a.dueDate, b.dueDate with
    | some x, some y => if x ≠ y then x < y else false
    | some _, none => true
    | none, some _ => false
    | none, none => false

/-- Stable insertion used to model `sort.SliceStable`: `x` is placed
before the first element `y` it is not strictly greater than
(`¬ taskLess y x`), so elements the comparator ties keep their original
relative order. -/
def insertTask (x : Task) : List Task → List Task
  | [] => [x]
  | y :: ys => if taskLess y x then y :: insertTask x ys else x :: y :: ys

/-- `sortTasks`: `sort.SliceStable(tasks, less)`, modelled as the stable
insertion sort with the source's comparator (`taskLess` is a strict weak
ordering, for which every stable sort produces the same output). -/
def sortTasks : List Task → List Task
  | [] => []
  | x :: xs => insertTask x (sortTasks xs)

/-! ## Tag collection shared by the two list controllers -/

/-- First-seen-order deduplication: the `seen` map plus append loop of
`collectTags`. -/
def firstSeen (l : List String) : List String :=
  l.foldl (fun acc t => if acc.contains t then acc else acc ++ [t]) []

/-- Go's `<` on strings: lexicographic comparison (byte order on UTF-8
agrees with code-point order). -/
def strLtb : List Char → List Char → Bool
  | [], [] => false
  | [], _ :: _ => true
  | _ :: _, [] => false
  | a :: as, b :: bs =>
    if a.toNat < b.toNat then true
    else if b.toNat < a.toNat then false
    else strLtb as bs

/-- Stable string insertion for `sort.Strings` (ascending). -/
def insertString (x : String) : List String → List String
  | [] => [x]
  | y :: ys => if strLtb y.data x.data then y :: insertString x ys
               else x :: y :: ys

/-- `sort.Strings`: ascending lexicographic sort. -/
def sortStrings : List String → List String
  | [] => []
  | x :: xs => insertString x (sortStrings xs)

/-- `collectTags` of the task list: every tag of every record of the full
unfiltered set, deduplicated in first-seen order, then sorted. -/
def collectTags (all : List Task) : List String :=
  sortStrings (firstSeen ((all.map Task.tags).flatten))

/-! ## Task list controller (src/unnamed/part_018) -/

/-- The `filterMode` constants. -/
def taskFilterAll : Nat := 0
def taskFilterPending : Nat := 1
def taskFilterDone : Nat := 2
def taskFilterByTag : Nat := 3
def taskFilterCount : Nat := 4

/-- `confirmKind`. -/
inductive ConfirmKind where
  | none
  | delete
  | clearDone
deriving Repr, DecidableEq

/-- `taskListModel` (vault handle and viewport dimensions omitted; the
store is passed explicitly to the operations that call it). -/
structure TaskListModel where
  tasks : List Task
  cursor : Nat
  filter : Nat
  tags : List String
  tagIndex : Nat
  confirm : ConfirmKind
  doneCount : Nat
deriving Repr, DecidableEq

/-- `taskListModel.taskFilter`: the store filter for the current mode. -/
def TaskListModel.taskFilter (m : TaskListModel) : TaskFilter :=
  if m.filter = taskFilterPending then ⟨.pending, .none, ""⟩
  else if m.filter = taskFilterDone then ⟨.done, .none, ""⟩
  else if m.filter = taskFilterByTag then
    (if 0 < m.tags.length then ⟨.all, .none, m.tags.getD m.tagIndex ""⟩
     else TaskFilter.empty)
  else TaskFilter.empty

/-- `TaskStore.List(f)` (src/unnamed/part_010): all stored tasks matching
the filter, in store order. Store errors are out of scope (the external
collaborator is assumed healthy as in the tests). -/
def storeList (store : List Task) (f : TaskFilter) : List Task :=
  store.filter (matchesFilter · f)

/-- `TaskStore.Delete(id)`. -/
def storeDelete (store : List Task) (id : String) : List Task :=
  store.filter (fun t => t.id ≠ id)

/-- `TaskStore.ClearDone` (src/unnamed/part_010 lines 216–232): list the
store, delete each done task by id, count the deletions, return the count
and the resulting store. -/
def storeClearDone (store : List Task) : Nat × List Task :=
  store.foldl
    (fun acc tk => if tk.done then (acc.1 + 1, storeDelete acc.2 tk.id) else acc)
    (0, store)

/-- `taskListModel.loadTasks`: list with the current filter, sort, cache
the done count from the unfiltered listing, recompute the distinct tags,
clamp the cursor. The filter is evaluated against the tags collected by
the previous load, exactly as in the source. -/
def TaskListModel.loadTasks (store : List Task) (m : TaskListModel) : TaskListModel :=
  let f := m.taskFilter
  let tasks := sortTasks (storeList store f)
  let doneCount := (store.filter Task.done).length
  let tags := collectTags store
  let cursor := if tasks.length ≤ m.cursor then tasks.length - 1 else m.cursor
  { m with tasks := tasks, doneCount := doneCount, tags := tags, cursor := cursor }

/-- `taskListModel.advanceFilter` (part_018 lines 117–136). -/
def TaskListModel.advanceFilter (m : TaskListModel) : TaskListModel :=
  if m.filter = taskFilterByTag then
    let ti := m.tagIndex + 1
    if m.tags.length ≤ ti then { m with tagIndex := 0, filter := taskFilterAll }
    else { m with tagIndex := ti }
  else
    let next := (m.filter + 1) % taskFilterCount
    let next := if next = taskFilterByTag ∧ m.tags.length = 0 then taskFilterAll
                else next
    if next = taskFilterByTag then { m with filter := next, tagIndex := 0 }
    else { m with filter := next }

/-- The `case "x"` arm of `taskListModel.Update` (part_018 lines 256–259):
arm the clear-completed confirmation only when at least one done task
exists. -/
def TaskListModel.pressClearCompleted (m : TaskListModel) : TaskListModel :=
  if 0 < m.doneCount then { m with confirm := .clearDone } else m

/-- The `case "d"` arm (lines 251–254): arm the delete confirmation only
when the list is non-empty. -/
def TaskListModel.pressDelete (m : TaskListModel) : TaskListModel :=
  if 0 < m.tasks.length then { m with confirm := .delete } else m

/-- `taskListModel.deleteSelected`: delete the task under the cursor, then
reload. -/
def TaskListModel.deleteSelected (store : List Task) (m : TaskListModel) :
    TaskListModel × List Task :=
  if m.tasks.length = 0 then (m, store)
  else
    let t := m.tasks.getD m.cursor (Task.new "" 0 "")
    let store := storeDelete store t.id
    (m.loadTasks store, store)

/-- `taskListModel.clearDone` (part_018 lines 322–334): one
`ClearDone` store call (whose returned count is discarded), then reload. -/
def TaskListModel.clearDone (store : List Task) (m : TaskListModel) :
    TaskListModel × List Task :=
  let store := (storeClearDone store).2
  (m.loadTasks store, store)

/-- `taskListModel.handleConfirm`: resolve an armed confirmation with
"y" (perform and disarm), "n" or "esc" (disarm, no mutation); any other
key leaves the prompt armed. -/
def TaskListModel.handleConfirm (key : String) (store : List Task)
    (m : TaskListModel) : TaskListModel × List Task :=
  if key = "y" then
    match m.confirm with
    | .delete => TaskListModel.deleteSelected store { m with confirm := .none }
    | .clearDone => TaskListModel.clearDone store { m with confirm := .none }
    | .none => (m, store)
  else if key = "n" ∨ key = "esc" then ({ m with confirm := .none }, store)
  else (m, store)

/-- `taskListModel.confirmPrompt` with `zstyle` styling as the identity:
the text of the armed confirmation. -/
def TaskListModel.confirmPrompt (m : TaskListModel) : String :=
  match m.confirm with
  | .delete =>
    if 0 < m.tasks.length then
      "  Delete \"" ++ (m.tasks.getD m.cursor (Task.new "" 0 "")).title ++ "\"? (y/n)"
    else ""
  | .clearDone => "  Clear " ++ toString m.doneCount ++ " done tasks? (y/n)"
  | .none => ""

/-! ## Secret model (src/unnamed/part_008, package `internal/secret`) -/

/-- `secret.Type`. -/
inductive SecretType where
  | password
  | apikey
  | sshkey
  | note
deriving Repr, DecidableEq

/-- The string value of a `secret.Type` constant. -/
def SecretType.str : SecretType → String
  | .password => "password"
  | .apikey => "apikey"
  | .sshkey => "sshkey"
  | .note => "note"

/-- A wall-clock timestamp at minute granularity, as rendered by the
layout "2006-01-02 15:04". -/
structure Timestamp where
  date : Date
  hh : Nat
  mi : Nat
deriving Repr, DecidableEq

/-- `Format("2006-01-02 15:04")`. -/
def Timestamp.fmt (ts : Timestamp) : String :=
  padNum 4 ts.date.y ++ "-" ++ padNum 2 ts.date.m ++ "-" ++ padNum 2 ts.date.d ++
    " " ++ padNum 2 ts.hh ++ ":" ++ padNum 2 ts.mi

/-- `secret.Secret`; the string-keyed field map is an association list. -/
structure Secret where
  id : String
  name : String
  type : SecretType
  fields : List (String × String)
  tags : List String
  createdAt : Timestamp
  updatedAt : Timestamp
deriving Repr, DecidableEq

/-- `Secret.field`: a map read, missing key reads as "". -/
def Secret.field (s : Secret) (key : String) : String :=
  (s.fields.lookup key).getD ""

def Secret.url (s : Secret) : String := s.field "url"
def Secret.username (s : Secret) : String := s.field "username"
def Secret.password (s : Secret) : String := s.field "password"
def Secret.totpSecret (s : Secret) : String := s.field "totp_secret"
def Secret.notes (s : Secret) : String := s.field "notes"
def Secret.service (s : Secret) : String := s.field "service"
def Secret.key (s : Secret) : String := s.field "key"
def Secret.label (s : Secret) : String := s.field "label"
def Secret.privateKey (s : Secret) : String := s.field "private_key"
def Secret.publicKey (s : Secret) : String := s.field "public_key"
def Secret.passphrase (s : Secret) : String := s.field "passphrase"
def Secret.content (s : Secret) : String := s.field "content"

/-! ## Secret detail controller (src/unnamed/part_014) -/

/-- `fieldAction` (`actionOpen` is named `openUrl`: `open` is a Lean
keyword). -/
inductive FieldAction where
  | none
  | copy
  | openUrl
deriving Repr, DecidableEq

/-- `detailField`. The `labelColor` styling field is pure presentation and
is omitted (styles are the identity on text in this model). -/
structure DetailField where
  label : String
  value : String
  sensitive : Bool
  live : Bool
  action : FieldAction
deriving Repr, DecidableEq

/-- Short constructor mirroring the struct literals in
`buildDetailFields`: label, value, sensitive flag, live flag, action. -/
def mkField (label value : String) (sensitive live : Bool)
    (action : FieldAction) : DetailField :=
  ⟨label, value, sensitive, live, action⟩

/-- A plain field: not sensitive, not live, no action. -/
def plainField (label value : String) : DetailField :=
  mkField label value false false .none

/-- `buildDetailFields`: ordered display fields for a secret — name, type,
the type's fields in fixed order (credential-bearing ones flagged
sensitive), optional notes, tags, then timestamps. -/
def buildDetailFields (s : Secret) : List DetailField :=
  [plainField "name" s.name, plainField "type" s.type.str] ++
  (match s.type with
   | .password =>
     [mkField "url" s.url false false .openUrl,
      mkField "username" s.username false false .copy,
      mkField "password" s.password true false .copy] ++
     (if s.totpSecret ≠ "" then
        [mkField "totp secret" s.totpSecret true false .none,
         mkField "totp code" "" false true .copy]
      else []) ++
     (if s.notes ≠ "" then [plainField "notes" s.notes] else [])
   | .apikey =>
     [plainField "service" s.service,
      mkField "key" s.key true false .copy] ++
     (if s.notes ≠ "" then [plainField "notes" s.notes] else [])
   | .sshkey =>
     [plainField "label" s.label,
      mkField "private key" s.privateKey true false .copy,
      mkField "public key" s.publicKey false false .copy] ++
     (if s.passphrase ≠ "" then
        [mkField "passphrase" s.passphrase true false .copy]
      else []) ++
     (if s.notes ≠ "" then [plainField "notes" s.notes] else [])
   | .note => [plainField "content" s.content]) ++
  (if 0 < s.tags.length then
    [plainField "tags" (String.intercalate ", " s.tags)]
   else []) ++
  [plainField "created" s.createdAt.fmt, plainField "updated" s.updatedAt.fmt]

/-- `secretDetailModel` (vault handle and viewport omitted). -/
structure SecretDetailModel where
  secret : Secret
  secretID : String
  showSensitive : Bool
  clipboardMsg : String
  confirmDelete : Bool
  cursor : Nat
  fields : List DetailField
  totpCode : String
  totpRemaining : Nat
  hasTOTP : Bool
deriving Repr, DecidableEq

/-- The masked placeholder rendered for a hidden sensitive value. -/
def maskPlaceholder : String := "••••••••"

/-- `typeBadge` with styling as the identity. -/
def typeBadge (t : String) : String :=
  if t = "password" then "[pw]"
  else if t = "apikey" then "[api]"
  else if t = "sshkey" then "[ssh]"
  else if t = "note" then "[note]"
  else "[" ++ t ++ "]"

/-- The `val` computation of `secretDetailModel.View` (lines 318–337) with
styles as the identity: live fields show the generated code and countdown,
the type renders as a badge, a sensitive field renders as the fixed
placeholder while the show/hide bit is off, everything else renders its
value. -/
def renderDetailValue (m : SecretDetailModel) (f : DetailField) : String :=
  if f.live then
    (if m.totpCode ≠ "" then
       m.totpCode ++ " (" ++ toString m.totpRemaining ++ "s)"
     else "generating...")
  else if f.label = "type" then typeBadge f.value
  else if f.sensitive ∧ ¬ m.showSensitive then maskPlaceholder
  else f.value

/-- The `case msg.String() == "s"` arm of `secretDetailModel.handleKeys`
(lines 237–238): one key flips the single show/hide bit. -/
def SecretDetailModel.pressToggleSensitive (m : SecretDetailModel) :
    SecretDetailModel :=
  { m with showSensitive := !m.showSensitive }

/-! ## Secret list controller (src/internal/tui/secret_list.go, the
revision with tag filtering cited by the claims) -/

/-- The `typeFilter` constants. -/
def filterAll : Nat := 0
def filterPassword : Nat := 1
def filterAPIKey : Nat := 2
def filterSSHKey : Nat := 3
def filterNote : Nat := 4
def filterByTag : Nat := 5
def filterCount : Nat := 6

/-- The slice of `secretListModel` state that drives filter cycling and
the root controller's quit decision. -/
structure SecretListModel where
  filter : Nat
  tagIndex : Nat
  tags : List String
  searching : Bool
deriving Repr, DecidableEq

/-- `collectTags` of the secret list: distinct tags of the unfiltered
secret set, first-seen deduplication then `sort.Strings`. -/
def collectSecretTags (secrets : List Secret) : List String :=
  sortStrings (firstSeen ((secrets.map Secret.tags).flatten))

/-- `secretListModel.advanceFilter` (secret_list.go lines 519–537). -/
def SecretListModel.advanceFilter (m : SecretListModel) : SecretListModel :=
  if m.filter = filterByTag then
    let ti := m.tagIndex + 1
    if m.tags.length ≤ ti then { m with tagIndex := 0, filter := filterAll }
    else { m with tagIndex := ti }
  else
    let next := (m.filter + 1) % filterCount
    let next := if next = filterByTag ∧ m.tags.length = 0 then filterAll else next
    if next = filterByTag then { m with filter := next, tagIndex := 0 }
    else { m with filter := next }

/-! ## Unlock controller (src/internal/tui/password.go) -/

/-- `passwordField`. -/
inductive PasswordField where
  | password
  | confirm
deriving Repr, DecidableEq

/-- `passwordModel`: the two text inputs are their string values, the
focused field is tracked explicitly (the bubbles focus/blur calls reduce
to this assignment), viewport omitted. -/
structure PasswordModel where
  password : String
  confirm : String
  focused : PasswordField
  firstRun : Bool
  err : String
  vaultDir : String
deriving Repr, DecidableEq

/-- The command returned to the runtime by the unlock controller: either
nothing or the asynchronous `vault.Open(dir, password)` call. -/
inductive PwCmd where
  | none
  | openVault (dir password : String)
deriving Repr, DecidableEq

/-- `passwordModel.nextField`: swap focus between the two fields. -/
def PasswordModel.nextField (m : PasswordModel) : PasswordModel :=
  if m.focused = .password then { m with focused := .confirm }
  else { m with focused := .password }

/-- `passwordModel.submit` (password.go lines 95–116): empty password is
an inline error; in first-run mode, submit on the password field moves to
confirm, submit on confirm compares the values (mismatch clears confirm
and errors in place, match opens); returning-user mode opens directly. -/
def PasswordModel.submit (m : PasswordModel) : PasswordModel × PwCmd :=
  let pw := m.password
  if pw = "" then ({ m with err := "password cannot be empty" }, .none)
  else if m.firstRun ∧ m.focused = .password then (m.nextField, .none)
  else if m.firstRun ∧ pw ≠ m.confirm then
    ({ m with err := "passwords do not match", confirm := "" }, .none)
  else (m, .openVault m.vaultDir pw)

/-! ## Root controller (src/unnamed/part_013) -/

/-- `viewID` (part_020). -/
inductive ViewID where
  | password
  | menu
  | secretList
  | secretDetail
  | secretForm
  | taskList
  | taskDetail
  | taskForm
deriving Repr, DecidableEq

/-- The slice of the root `Model` relevant to the quit decision: the
active view and the secret list sub-model (whose `searching` flag the
root inspects). -/
structure RootModel where
  view : ViewID
  secretList : SecretListModel
deriving Repr, DecidableEq

/-- A keyboard message, as discriminated by the root controller. -/
inductive KeyMsg where
  | ctrlC
  | char (c : Char)
  | esc
  | enter
  | tab
deriving Repr, DecidableEq

/-- `zstyle.KeyQuit` (external collaborator), per the root controller's
comment "global quit: q or ctrl+c". -/
def matchesQuit : KeyMsg → Bool
  | .ctrlC => true
  | .char c => c = 'q'
  | _ => false

/-- `Model.isTextInputActive` (part_013 lines 259–271): a free-text field
is focused in the Unlock view always, in the secret list exactly while
searching, and in the two form views always. -/
def RootModel.isTextInputActive (m : RootModel) : Bool :=
  match m.view with
  | .password => true
  | .secretList => m.secretList.searching
  | .secretForm => true
  | .taskForm => true
  | _ => false

/-- The quit decision of `Model.Update`'s `tea.KeyMsg` arm (part_013
lines 136–148): with a text input active only Ctrl+C quits, otherwise the
global quit key quits; every other key is dispatched to the active
sub-view (none of which ever returns `tea.Quit`). -/
def RootModel.quitsOn (m : RootModel) (k : KeyMsg) : Bool :=
  if m.isTextInputActive then k = .ctrlC else matchesQuit k

/-! ## Secret form controller (src/internal/tui/secret_form.go) -/

/-- `formMode`. -/
inductive FormMode where
  | create
  | edit
deriving Repr, DecidableEq

/-- `formInput`: one single-line text field of the secret form. -/
structure FormInput where
  label : String
  fieldKey : String
  value : String
  masked : Bool
deriving Repr, DecidableEq

/-- `secretFormModel` (vault handle and viewport omitted). `focused` is an
`Int`: position −1 is the create-mode type selector. -/
structure SecretFormModel where
  mode : FormMode
  editID : String
  secType : SecretType
  typeSel : Nat
  inputs : List FormInput
  focused : Int
  changed : Bool
  err : String
  confirmDiscard : Bool
deriving Repr, DecidableEq

/-- `typeOptions`. -/
def typeOptions : List SecretType := [.password, .apikey, .sshkey, .note]

/-- `buildFormInputs`: name first, the type's fields, tags last;
credential-bearing fields masked. -/
def buildFormInputs (t : SecretType) (s : Secret) : List FormInput :=
  [⟨"name", "name", s.name, false⟩] ++
  (match t with
   | .password =>
     [⟨"url", "url", s.url, false⟩,
      ⟨"username", "username", s.username, false⟩,
      ⟨"password", "password", s.password, true⟩,
      ⟨"totp secret", "totp_secret", s.totpSecret, true⟩,
      ⟨"notes", "notes", s.notes, false⟩]
   | .apikey =>
     [⟨"service", "service", s.service, false⟩,
      ⟨"key", "key", s.key, true⟩,
      ⟨"notes", "notes", s.notes, false⟩]
   | .sshkey =>
     [⟨"label", "label", s.label, false⟩,
      ⟨"private key", "private_key", s.privateKey, true⟩,
      ⟨"public key", "public_key", s.publicKey, false⟩,
      ⟨"passphrase", "passphrase", s.passphrase, true⟩,
      ⟨"notes", "notes", s.notes, false⟩]
   | .note => [⟨"content", "content", s.content, false⟩]) ++
  [⟨"tags", "tags",
    (if 0 < s.tags.length then String.intercalate ", " s.tags else ""), false⟩]

/-- The zero `secret.Secret{}` literal used by `initForCreate` and
`rebuildInputsPreserveName`. -/
def emptySecret : Secret :=
  ⟨"", "", .password, [], [], ⟨⟨0, 0, 0⟩, 0, 0⟩, ⟨⟨0, 0, 0⟩, 0, 0⟩⟩

/-- `secretFormModel.initForCreate`: create mode starts on the type
selector with a clean change flag. (`emptySecret` stands for Go's zero
`Secret{}` with type field `""`; `buildFormInputs` only reads its empty
field map, so the inputs start empty either way.) -/
def SecretFormModel.initForCreate (m : SecretFormModel) : SecretFormModel :=
  { m with mode := .create, editID := "", typeSel := 0,
           secType := .password, changed := false, err := "",
           confirmDiscard := false,
           inputs := buildFormInputs .password emptySecret, focused := -1 }

/-- `secretFormModel.initForEdit`, given the loaded record: edit mode
fixes the type and starts focus at the first real field, clean. -/
def SecretFormModel.initForEdit (m : SecretFormModel) (s : Secret) :
    SecretFormModel :=
  { m with mode := .edit, editID := s.id, changed := false, err := "",
           confirmDiscard := false, secType := s.type,
           typeSel := (typeOptions.indexOf s.type),
           inputs := buildFormInputs s.type s, focused := 0 }

/-- Keyboard messages as discriminated by the secret form. -/
inductive FormKey where
  | ctrlS
  | esc
  | tab
  | shiftTab
  | enter
  | leftKey
  | rightKey
  | char (c : Char)
deriving Repr, DecidableEq

/-- Effects the secret form hands back to the root controller. -/
inductive FormEff where
  | none
  | navigateList
  | saveRequested
deriving Repr, DecidableEq

/-- The bubbles `textinput.Update` on a printable rune: append it to the
value at the (end-of-line) caret. -/
def inputApplyChar (v : String) (c : Char) : String := v.push c

/-- `secretFormModel.rebuildInputsPreserveName`. -/
def SecretFormModel.rebuildInputsPreserveName (m : SecretFormModel) :
    SecretFormModel :=
  let name := (m.inputs.getD 0 ⟨"", "", "", false⟩).value
  let inputs := buildFormInputs m.secType emptySecret
  let inputs :=
    match inputs with
    | i :: rest => { i with value := name } :: rest
    | [] => []
  let focused := if (inputs.length : Int) ≤ m.focused then 0 else m.focused
  { m with inputs := inputs, focused := focused }

/-- `secretFormModel.handleKeys` (secret_form.go lines 228–310). Save is
reported as the `saveRequested` effect; the save controller itself is not
needed by any claim about this form. -/
def SecretFormModel.handleKeys (k : FormKey) (m : SecretFormModel) :
    SecretFormModel × FormEff :=
  let minFocus : Int := if m.mode = .create then -1 else 0
  match k with
  | .ctrlS => (m, .saveRequested)
  | .esc =>
    if m.changed then ({ m with confirmDiscard := true }, .none)
    else (m, .navigateList)
  | .shiftTab =>
    let m := { m with changed := true }
    if minFocus < m.focused then ({ m with focused := m.focused - 1 }, .none)
    else (m, .none)
  | .tab =>
    let m := { m with changed := true }
    if m.focused < (m.inputs.length : Int) - 1 then
      ({ m with focused := m.focused + 1 }, .none)
    else (m, .none)
  | .enter =>
    if m.focused = -1 then ({ m with focused := 0 }, .none)
    else if m.focused = (m.inputs.length : Int) - 1 then (m, .saveRequested)
    else
      let m := { m with changed := true }
      if m.focused < (m.inputs.length : Int) - 1 then
        ({ m with focused := m.focused + 1 }, .none)
      else (m, .none)
  | .leftKey =>
    if m.mode = .create ∧ m.focused = -1 then
      let typeSel := if 0 < m.typeSel then m.typeSel - 1 else typeOptions.length - 1
      let m := { m with typeSel := typeSel,
                        secType := typeOptions.getD typeSel .password }
      (m.rebuildInputsPreserveName, .none)
    else (m, .none)
  | .rightKey =>
    if m.mode = .create ∧ m.focused = -1 then
      let typeSel := (m.typeSel + 1) % typeOptions.length
      let m := { m with typeSel := typeSel,
                        secType := typeOptions.getD typeSel .password }
      (m.rebuildInputsPreserveName, .none)
    else (m, .none)
  | .char c =>
    if 0 ≤ m.focused ∧ m.focused < (m.inputs.length : Int) then
      let i := m.focused.toNat
      let old := (m.inputs.getD i ⟨"", "", "", false⟩).value
      let nw := inputApplyChar old c
      let inputs := m.inputs.mapIdx fun j inp =>
        if j = i then { inp with value := nw } else inp
      let m := { m with inputs := inputs }
      (if nw ≠ old then { m with changed := true } else m, .none)
    else (m, .none)

/-- `secretFormModel.handleDiscardConfirm` (lines 217–226). -/
def SecretFormModel.handleDiscardConfirm (key : String) (m : SecretFormModel) :
    SecretFormModel × FormEff :=
  if key = "y" ∨ key = "Y" then
    ({ m with confirmDiscard := false }, .navigateList)
  else if key = "n" ∨ key = "N" ∨ key = "esc" then
    ({ m with confirmDiscard := false }, .none)
  else (m, .none)

/-! ## Task form controller (src/internal/tui/task_form.go) -/

/-- The `formField` focus positions. -/
def fieldTitle : Nat := 0
def fieldPriority : Nat := 1
def fieldDue : Nat := 2
def fieldTags : Nat := 3
def formFieldCount : Nat := 4

/-- `taskFormModel` (vault handle and viewport omitted; the three text
inputs are their string values). -/
structure TaskFormModel where
  editing : Option Task
  title : String
  due : String
  tags : String
  priority : Priority
  focused : Nat
  err : String
deriving Repr, DecidableEq

/-- The `priorities` cycle order. -/
def priorities : List Priority := [.none, .low, .medium, .high]

/-- `taskFormModel.cyclePriority`. -/
def TaskFormModel.cyclePriority (m : TaskFormModel) : TaskFormModel :=
  let p := priorities.getD ((priorities.indexOf m.priority + 1) % priorities.length)
    Priority.none
  { m with priority := p }

/-- `taskFormModel.reset`: create mode, everything cleared, focus on the
title. -/
def TaskFormModel.reset (m : TaskFormModel) : TaskFormModel :=
  { m with editing := none, title := "", due := "", tags := "",
           priority := .none, focused := fieldTitle, err := "" }

/-- `taskFormModel.loadTask` (task_form.go lines 87–102): edit mode, the
inputs seeded from the loaded record, focus on the title. -/
def TaskFormModel.loadTask (m : TaskFormModel) (t : Task) : TaskFormModel :=
  { m with editing := some t, title := t.title, priority := t.priority,
           due := formatDateForEdit (t.dueDate.map fromEpochDay),
           tags := if 0 < t.tags.length then String.intercalate ", " t.tags
                   else "",
           focused := fieldTitle, err := "" }

/-- Split on commas (`strings.Split(raw, ",")`). -/
def splitCommaAux : List Char → List Char → List (List Char)
  | [], cur => [cur.reverse]
  | ',' :: rest, cur => cur.reverse :: splitCommaAux rest []
  | c :: rest, cur => splitCommaAux rest (c :: cur)

/-- The tag parsing shared by both forms: trim the raw value; when
non-empty, split on commas, trim each part, drop empties. -/
def parseTags (raw : String) : List String :=
  let cs := trimSpace raw.data
  if cs = [] then []
  else
    ((splitCommaAux cs []).map trimSpace).filterMap fun t =>
      if t = [] then none else some (String.mk t)

/-- `TaskStore.Update` / `TaskStore.Add`: `Put(id, task)` on the keyed
collection — replace the record with that id, or append a new one. -/
def storePutTask (store : List Task) (t : Task) : List Task :=
  if store.any (·.id = t.id) then
    store.map fun x => if x.id = t.id then t else x
  else store ++ [t]

/-- The result of `taskFormModel.save`: an inline error keeps the user in
the form, success writes a record and navigates back to the list. -/
inductive TaskFormSave where
  | stay (m : TaskFormModel)
  | saved (written : Task) (store : List Task)
deriving Repr, DecidableEq

/-- `taskFormModel.save` (task_form.go lines 212–265). The clock and the
fresh record identifier of `task.New` are the explicit `now` / `freshId` /
`createdNow` parameters. Edit mode writes the edited title, priority, due
date and tags onto the loaded record and issues `Update`; create mode
builds a fresh record and issues `Add`. -/
def TaskFormModel.save (now : Date) (freshId : String) (createdNow : Int)
    (store : List Task) (m : TaskFormModel) : TaskFormSave :=
  let title := String.mk (trimSpace m.title.data)
  if title = "" then .stay { m with err := "title is required" }
  else
    match datesParse now m.due with
    | .error e => .stay { m with err := e }
    | .ok dueDate =>
      let tags := parseTags m.tags
      match m.editing with
      | some t0 =>
        let t := { t0 with title := title, priority := m.priority,
                           dueDate := dueDate.map toEpochDay, tags := tags }
        .saved t (storePutTask store t)
      | none =>
        let t := Task.new freshId createdNow title
        let t := { t with priority := m.priority,
                          dueDate := dueDate.map toEpochDay, tags := tags }
        .saved t (storePutTask store t)

/-! # Theorems settling the claims -/

set_option maxRecDepth 100000

/-- C8: with the clock fixed at 2026-02-18, the shared relative-date
parser maps "tomorrow" to 2026-02-19, and formatting that date relative to
the same reference returns "tomorrow" — a parse-then-format round trip. -/
theorem C8_parse_format_tomorrow_roundtrip :
    datesParse ⟨2026, 2, 18⟩ "tomorrow" = .ok (some ⟨2026, 2, 19⟩) ∧
    formatRelative ⟨2026, 2, 18⟩ ⟨2026, 2, 19⟩ = "tomorrow" := by
  constructor <;> rfl

/-- C7: for every root-controller state and key, the key quits exactly
when either no free-text field is focused and the key matches the global
quit binding, or a free-text field is focused and the key is the Ctrl+C
force-quit; and a free-text field is focused precisely in the Unlock view,
the two form views, and the secret list while its search mode is active. -/
theorem C7_root_quit_policy (m : RootModel) (k : KeyMsg) :
    (m.quitsOn k = true ↔
      ((m.isTextInputActive = false ∧ matchesQuit k = true) ∨
       (m.isTextInputActive = true ∧ k = .ctrlC))) ∧
    (m.isTextInputActive = true ↔
      (m.view = .password ∨ m.view = .secretForm ∨ m.view = .taskForm ∨
       (m.view = .secretList ∧ m.secretList.searching = true))) := by
  constructor
  · cases k <;> by_cases h : m.isTextInputActive <;>
      simp [RootModel.quitsOn, matchesQuit, h]
  · unfold RootModel.isTextInputActive
    cases hv : m.view <;> simp [hv]

/-- C6 counterexample: in first-run mode with the password field focused
and an empty password value, submit does NOT move focus to the confirm
field (it shows the inline "password cannot be empty" error and stays),
contradicting the claim that submitting on the password field moves focus
to confirm. -/
theorem C6_submit_empty_password_counterexample :
    let m : PasswordModel :=
      ⟨"", "", .password, true, "", "/tmp/vault"⟩
    ¬ (m.submit.1.focused = .confirm) ∧
    m.submit.1.err = "password cannot be empty" ∧ m.submit.2 = .none := by
  decide

/-- C6 amended: the claimed unlock submit behaviour holds for a non-empty
password value (with an empty password, submit shows the inline error and
issues no store call in every mode — which is the returning-user clause of
the claim, but also fires in first-run mode). In first-run mode a
non-empty submit on the password field moves focus to confirm with no
store call; submit on confirm with differing values clears confirm, shows
the inline error, keeps focus on confirm, and issues no store call;
matching values issue the open call; in returning-user mode a non-empty
submit issues the open call directly and an empty submit shows an inline
error without calling the store. -/
theorem C6_password_submit_spec (m : PasswordModel) :
    (m.firstRun = true → m.focused = .password → m.password ≠ "" →
      m.submit.1.focused = .confirm ∧ m.submit.1.password = m.password ∧
      m.submit.2 = .none) ∧
    (m.firstRun = true → m.focused = .confirm → m.password ≠ "" →
      m.password ≠ m.confirm →
      m.submit.1.confirm = "" ∧ m.submit.1.err = "passwords do not match" ∧
      m.submit.1.focused = .confirm ∧ m.submit.2 = .none) ∧
    (m.firstRun = true → m.focused = .confirm → m.password ≠ "" →
      m.password = m.confirm →
      m.submit = (m, .openVault m.vaultDir m.password)) ∧
    (m.firstRun = false → m.password ≠ "" →
      m.submit = (m, .openVault m.vaultDir m.password)) ∧
    (m.password = "" →
      m.submit.1.err = "password cannot be empty" ∧
      m.submit.1.focused = m.focused ∧ m.submit.2 = .none) := by
  refine ⟨?_, ?_, ?_, ?_, ?_⟩ <;>
    intros <;>
    simp_all [PasswordModel.submit, PasswordModel.nextField]

/-- C6 witness: the amended theorem applied at concrete models covering
each hypothesis-bearing conjunct. -/
theorem C6_password_submit_spec_witness :
    (let m1 : PasswordModel := ⟨"pw", "", .password, true, "", "d"⟩
     m1.submit.1.focused = .confirm ∧ m1.submit.1.password = "pw" ∧
       m1.submit.2 = .none) ∧
    (let m2 : PasswordModel := ⟨"pw", "other", .confirm, true, "", "d"⟩
     m2.submit.1.confirm = "" ∧ m2.submit.1.err = "passwords do not match" ∧
       m2.submit.1.focused = .confirm ∧ m2.submit.2 = .none) ∧
    (let m3 : PasswordModel := ⟨"pw", "pw", .confirm, true, "", "d"⟩
     m3.submit = (m3, .openVault "d" "pw")) ∧
    (let m4 : PasswordModel := ⟨"pw", "", .password, false, "", "d"⟩
     m4.submit = (m4, .openVault "d" "pw")) ∧
    (let m5 : PasswordModel := ⟨"", "", .password, false, "", "d"⟩
     m5.submit.1.err = "password cannot be empty" ∧
       m5.submit.1.focused = .password ∧ m5.submit.2 = .none) := by
  refine ⟨?_, ?_, ?_, ?_, ?_⟩
  · exact (C6_password_submit_spec _).1 (by decide) (by decide) (by decide)
  · exact (C6_password_submit_spec _).2.1 (by decide) (by decide) (by decide)
      (by decide)
  · exact (C6_password_submit_spec _).2.2.1 (by decide) (by decide) (by decide)
      (by decide)
  · exact (C6_password_submit_spec _).2.2.2.1 (by decide) (by decide)
  · exact ((C6_password_submit_spec _).2.2.2.2 (by decide)).imp id
      (fun h => ⟨h.1, h.2⟩)

/-- Appending a character strictly changes a text input's value. -/
theorem inputApplyChar_ne (v : String) (c : Char) : inputApplyChar v c ≠ v := by
  intro h
  have h2 := congrArg (fun s : String => s.data.length) h
  simp [inputApplyChar, String.push] at h2

/-- C10: Tab, Shift-Tab and Enter-to-advance mark the secret form dirty
even though they modify no field value; both initialisers produce a clean
form; from any clean form, Tab followed by Esc arms the discard
confirmation with no navigation effect (instead of returning to the
list); and a keystroke that changes the focused input's value also sets
the flag. -/
theorem C10_secret_form_dirty_flag (m : SecretFormModel) (f0 : SecretFormModel)
    (s : Secret) (c : Char) :
    ((SecretFormModel.handleKeys .tab m).1.changed = true) ∧
    ((SecretFormModel.handleKeys .shiftTab m).1.changed = true) ∧
    (m.focused ≠ -1 → m.focused ≠ (m.inputs.length : Int) - 1 →
      (SecretFormModel.handleKeys .enter m).1.changed = true) ∧
    (f0.initForCreate.changed = false ∧ (f0.initForEdit s).changed = false) ∧
    (m.changed = false →
      SecretFormModel.handleKeys .esc (SecretFormModel.handleKeys .tab m).1 =
        ({ (SecretFormModel.handleKeys .tab m).1 with confirmDiscard := true },
         FormEff.none)) ∧
    (0 ≤ m.focused → m.focused < (m.inputs.length : Int) →
      (SecretFormModel.handleKeys (.char c) m).1.changed = true) := by
  have hesc : ∀ m1 : SecretFormModel, m1.changed = true →
      SecretFormModel.handleKeys .esc m1 =
        ({ m1 with confirmDiscard := true }, FormEff.none) := by
    intro m1 h
    simp only [SecretFormModel.handleKeys, h, if_true]
  have htab : (SecretFormModel.handleKeys .tab m).1.changed = true := by
    simp only [SecretFormModel.handleKeys]
    split <;> rfl
  refine ⟨htab, ?_, ?_, ⟨rfl, rfl⟩, fun _ => hesc _ htab, ?_⟩
  · simp only [SecretFormModel.handleKeys]
    split <;> split <;> rfl
  · intro h1 h2
    simp only [SecretFormModel.handleKeys, if_neg h1, if_neg h2]
    split <;> rfl
  · intro h1 h2
    simp only [SecretFormModel.handleKeys, if_pos (And.intro h1 h2)]
    rw [if_pos (inputApplyChar_ne _ c)]

/-- A concrete fresh secret form for the C10 witness. -/
def c10Form : SecretFormModel :=
  ⟨.create, "", .password, 0, buildFormInputs .password emptySecret,
   -1, false, "", false⟩

/-- C10 witness: on the fresh create-mode form, Tab sets the flag, Tab
then Esc arms the discard confirmation with no navigation effect, and a
character or Enter on the focused name field also sets the flag. -/
theorem C10_secret_form_dirty_flag_witness :
    (SecretFormModel.handleKeys .tab c10Form.initForCreate).1.changed = true ∧
    c10Form.initForCreate.changed = false ∧
    SecretFormModel.handleKeys .esc
        (SecretFormModel.handleKeys .tab c10Form.initForCreate).1 =
      ({ (SecretFormModel.handleKeys .tab c10Form.initForCreate).1 with
          confirmDiscard := true }, FormEff.none) ∧
    (SecretFormModel.handleKeys (.char 'a')
        { c10Form.initForCreate with focused := 0 }).1.changed = true ∧
    (SecretFormModel.handleKeys .enter
        { c10Form.initForCreate with focused := 0 }).1.changed = true := by
  refine ⟨(C10_secret_form_dirty_flag c10Form.initForCreate c10Form
      emptySecret 'a').1, rfl,
    (C10_secret_form_dirty_flag c10Form.initForCreate c10Form
      emptySecret 'a').2.2.2.2.1 rfl,
    (C10_secret_form_dirty_flag { c10Form.initForCreate with focused := 0 }
      c10Form emptySecret 'a').2.2.2.2.2 (by decide) (by decide),
    (C10_secret_form_dirty_flag { c10Form.initForCreate with focused := 0 }
      c10Form emptySecret 'a').2.2.1 (by decide) (by decide)⟩

/-- C9: a successful task-form save in edit mode (a form whose `editing`
field was loaded with a full task value) writes only the edited title,
priority, due date and tags onto the original record — its identifier,
creation timestamp, done flag and completion timestamp are unchanged —
and a successful save in create mode builds a fresh record (fresh id,
creation time now, not done, no completion timestamp). -/
theorem C9_task_form_save_frame (now : Date) (freshId : String)
    (createdNow : Int) (store : List Task) (m : TaskFormModel) :
    (∀ f t, ((f : TaskFormModel).loadTask t).editing = some t) ∧
    (∀ t0 t st, m.editing = some t0 →
      m.save now freshId createdNow store = .saved t st →
      t.id = t0.id ∧ t.createdAt = t0.createdAt ∧ t.done = t0.done ∧
      t.completedAt = t0.completedAt ∧
      t.title = String.mk (trimSpace m.title.data) ∧ t.priority = m.priority ∧
      (∃ pd, datesParse now m.due = .ok pd ∧ t.dueDate = pd.map toEpochDay) ∧
      t.tags = parseTags m.tags ∧ st = storePutTask store t) ∧
    (∀ t st, m.editing = none →
      m.save now freshId createdNow store = .saved t st →
      t.id = freshId ∧ t.createdAt = createdNow ∧ t.done = false ∧
      t.completedAt = none ∧
      t.title = String.mk (trimSpace m.title.data) ∧ t.priority = m.priority ∧
      (∃ pd, datesParse now m.due = .ok pd ∧ t.dueDate = pd.map toEpochDay) ∧
      t.tags = parseTags m.tags ∧ st = storePutTask store t) := by
  refine ⟨fun f t => rfl, ?_, ?_⟩
  · intro t0 t st h1 h2
    simp only [TaskFormModel.save] at h2
    split at h2
    · exact absurd h2 (by simp)
    · split at h2
      · exact absurd h2 (by simp)
      · rename_i pd heq
        rw [h1] at h2
        simp only [TaskFormSave.saved.injEq] at h2
        obtain ⟨ht, hst⟩ := h2
        subst ht
        exact ⟨rfl, rfl, rfl, rfl, rfl, rfl, ⟨pd, heq, rfl⟩, rfl, hst.symm⟩
  · intro t st h1 h2
    simp only [TaskFormModel.save] at h2
    split at h2
    · exact absurd h2 (by simp)
    · split at h2
      · exact absurd h2 (by simp)
      · rename_i pd heq
        rw [h1] at h2
        simp only [TaskFormSave.saved.injEq] at h2
        obtain ⟨ht, hst⟩ := h2
        subst ht
        exact ⟨rfl, rfl, rfl, rfl, rfl, rfl, ⟨pd, heq, rfl⟩, rfl, hst.symm⟩

/-- The original record for the C9 witness: done, with a completion
timestamp. -/
def c9Task : Task := ⟨"abcd1234", "Old", true, .low, some 3, ["x"], 7, some 9⟩

/-- The C9 witness form: `c9Task` loaded for edit, then the title, due
date, tags and priority edited. -/
def c9Form : TaskFormModel :=
  { (TaskFormModel.loadTask ⟨none, "", "", "", .none, 0, ""⟩ c9Task) with
    title := "  New title ", due := "tomorrow", tags := "a, b",
    priority := .high }

/-- The record C9's witness save writes (2026-02-19 is epoch day 20503). -/
def c9Written : Task :=
  ⟨"abcd1234", "New title", true, .high, some 20503, ["a", "b"], 7, some 9⟩

/-- C9 witness: the frame theorem applied to the concrete edit-mode save
fixed at 2026-02-18, confirming the identifier, creation time, done flag
and completion timestamp survive while title/priority/due/tags are the
edited values. -/
theorem C9_task_form_save_frame_witness :
    c9Form.editing = some c9Task ∧
    c9Form.save ⟨2026, 2, 18⟩ "ffffffff" 11 [c9Task] =
      .saved c9Written (storePutTask [c9Task] c9Written) ∧
    c9Written.id = c9Task.id ∧ c9Written.createdAt = c9Task.createdAt ∧
    c9Written.done = c9Task.done ∧ c9Written.completedAt = c9Task.completedAt := by
  have h := (C9_task_form_save_frame ⟨2026, 2, 18⟩ "ffffffff" 11 [c9Task]
    c9Form).2.1 c9Task c9Written (storePutTask [c9Task] c9Written)
    rfl (by decide)
  exact ⟨rfl, by decide, h.1, h.2.1, h.2.2.1, h.2.2.2.1⟩

/-- The ids of the done tasks of a listing. -/
def doneIds (iter : List Task) : List String :=
  (iter.filter Task.done).map Task.id

/-- Unrolling the `ClearDone` loop: the count grows by one per done task
of the listed snapshot, and the store loses exactly the tasks whose id is
a done task's id. -/
theorem clearDone_foldl (iter : List Task) :
    ∀ (c : Nat) (cur : List Task),
    iter.foldl
        (fun acc tk => if tk.done then (acc.1 + 1, storeDelete acc.2 tk.id)
                       else acc) (c, cur) =
      (c + (iter.filter Task.done).length,
       cur.filter (fun x => !((doneIds iter).contains x.id))) := by
  induction iter with
  | nil => intro c cur; simp [doneIds]
  | cons t ts ih =>
    intro c cur
    by_cases hd : t.done
    · rw [List.foldl_cons]
      simp only [hd, if_true]
      rw [ih, Prod.mk.injEq]
      constructor
      · simp [hd]; omega
      · rw [storeDelete, List.filter_filter]
        apply List.filter_congr
        intro x _
        simp only [doneIds, hd, List.filter_cons, if_true, List.map_cons,
          List.contains_cons, Bool.not_or, Bool.and_comm]
        congr 1
        simp [BEq.beq]
    · rw [List.foldl_cons]
      simp only [hd, if_false]
      rw [ih, Prod.mk.injEq]
      constructor
      · simp [hd]
      · apply List.filter_congr
        intro x _
        simp [doneIds, hd]

/-- When the store's ids are distinct (it is a keyed collection),
`ClearDone` returns the number of done tasks and leaves exactly the
pending ones. -/
theorem storeClearDone_spec (store : List Task)
    (h : (store.map Task.id).Nodup) :
    storeClearDone store =
      ((store.filter Task.done).length, store.filter (fun t => !t.done)) := by
  unfold storeClearDone
  rw [clearDone_foldl, Prod.mk.injEq]
  refine ⟨by omega, ?_⟩
  apply List.filter_congr
  intro x hx
  have hiff : x.id ∈ doneIds store ↔ x.done = true := by
    constructor
    · intro hmem
      simp only [doneIds, List.mem_map, List.mem_filter] at hmem
      obtain ⟨t, ⟨ht, htd⟩, hid⟩ := hmem
      have heq := List.inj_on_of_nodup_map h ht hx hid
      rw [← heq]; exact htd
    · intro hd
      simp only [doneIds, List.mem_map, List.mem_filter]
      exact ⟨x, ⟨hx, hd⟩, rfl⟩
  cases hxd : x.done <;> simp_all [List.contains_iff_exists_mem_beq]

/-- C4: with a keyed store (distinct ids) and the cached done count as
maintained by `loadTasks`, the clear-completed key arms the confirmation
exactly when at least one done task exists (and is a no-op otherwise);
the armed prompt reports the done count, which equals the count the
store's single `ClearDone` call removes; answering yes performs that one
call — afterwards the store holds exactly the pending tasks — and
reloads; answering no or Esc cancels with no store mutation. -/
theorem C4_clear_completed_confirmation (store : List Task)
    (m : TaskListModel) (hids : (store.map Task.id).Nodup)
    (hcount : m.doneCount = (store.filter Task.done).length)
    (hconfirm : m.confirm = .none) :
    (m.pressClearCompleted.confirm = .clearDone ↔ 0 < m.doneCount) ∧
    (m.doneCount = 0 → m.pressClearCompleted = m) ∧
    (0 < m.doneCount →
      m.pressClearCompleted.confirmPrompt =
        "  Clear " ++ toString m.doneCount ++ " done tasks? (y/n)" ∧
      (storeClearDone store).1 = m.doneCount) ∧
    (0 < m.doneCount →
      TaskListModel.handleConfirm "y" store m.pressClearCompleted =
        (TaskListModel.loadTasks (store.filter (fun t => !t.done))
          { m.pressClearCompleted with confirm := .none },
         store.filter (fun t => !t.done))) ∧
    (∀ k, k = "n" ∨ k = "esc" →
      TaskListModel.handleConfirm k store m.pressClearCompleted =
        ({ m.pressClearCompleted with confirm := .none }, store)) := by
  refine ⟨?_, ?_, ?_, ?_, ?_⟩
  · unfold TaskListModel.pressClearCompleted
    by_cases hc : 0 < m.doneCount <;> simp [hc, hconfirm]
  · intro hc
    unfold TaskListModel.pressClearCompleted
    simp [hc]
  · intro hc
    unfold TaskListModel.pressClearCompleted
    rw [if_pos hc]
    refine ⟨rfl, ?_⟩
    rw [storeClearDone_spec store hids, hcount]
  · intro hc
    unfold TaskListModel.pressClearCompleted
    rw [if_pos hc]
    show TaskListModel.handleConfirm "y" store _ = _
    unfold TaskListModel.handleConfirm
    rw [if_pos rfl]
    show TaskListModel.clearDone store _ = _
    unfold TaskListModel.clearDone
    rw [storeClearDone_spec store hids]
  · intro k hk
    unfold TaskListModel.handleConfirm
    have hky : ¬ (k = "y") := by rcases hk with h | h <;> subst h <;> decide
    rw [if_neg hky, if_pos hk]

/-- C4 witness store: one done task, one pending task. -/
def c4Store : List Task :=
  [⟨"aaaaaaaa", "Done 1", true, .none, none, [], 0, some 1⟩,
   ⟨"bbbbbbbb", "Pending", false, .none, none, [], 0, none⟩]

/-- C4 witness model: the task list loaded from `c4Store`. -/
def c4Model : TaskListModel :=
  TaskListModel.loadTasks c4Store ⟨[], 0, 0, [], 0, .none, 0⟩

/-- C4 witness: on the concrete store with one done task, pressing the
clear-completed key arms the confirmation, the prompt reports 1, yes
leaves only the pending task in the store, and no leaves it untouched. -/
theorem C4_clear_completed_confirmation_witness :
    c4Model.pressClearCompleted.confirm = .clearDone ∧
    c4Model.pressClearCompleted.confirmPrompt =
      "  Clear " ++ toString c4Model.doneCount ++ " done tasks? (y/n)" ∧
    (storeClearDone c4Store).1 = c4Model.doneCount ∧
    (TaskListModel.handleConfirm "y" c4Store c4Model.pressClearCompleted).2 =
      c4Store.filter (fun t => !t.done) ∧
    TaskListModel.handleConfirm "n" c4Store c4Model.pressClearCompleted =
      ({ c4Model.pressClearCompleted with confirm := .none }, c4Store) := by
  have h := C4_clear_completed_confirmation c4Store c4Model
    (by decide) (by decide) (by decide)
  refine ⟨(h.1).mpr (by decide), (h.2.2.1 (by decide)).1,
    (h.2.2.1 (by decide)).2, ?_, h.2.2.2.2 "n" (Or.inl rfl)⟩
  rw [h.2.2.2.1 (by decide)]

/-- `needle` occurs contiguously inside `hay`. -/
def isSubstr (needle hay : String) : Prop :=
  ∃ a b, hay.data = a ++ needle.data ++ b

/-- Every field of the detail list is either not sensitive, or is a
non-live field whose label is not "type" (`Bool`-level, evaluated per
branch of the builder). -/
theorem buildDetailFields_shape_all (s : Secret) :
    (buildDetailFields s).all
      (fun f => !f.sensitive || (!f.live && (f.label != "type"))) = true := by
  unfold buildDetailFields
  cases s.type <;> simp only [mkField, plainField] <;> split_ifs <;> rfl

/-- A sensitive field of the detail list is never the live TOTP field and
never the type badge: its rendering takes the mask branch. -/
theorem sensitive_field_shape (s : Secret) (f : DetailField)
    (hf : f ∈ buildDetailFields s) (hs : f.sensitive = true) :
    f.live = false ∧ f.label ≠ "type" := by
  have h := List.all_eq_true.mp (buildDetailFields_shape_all s) f hf
  rw [hs] at h
  simp at h
  exact ⟨h.1, h.2⟩

/-- Timestamp for the C5 witness records. -/
def c5Ts : Timestamp := ⟨⟨2026, 2, 18⟩, 9, 30⟩

/-- C5 counterexample secret: a password record whose password value is
the single mask character "•". -/
def c5Secret : Secret :=
  ⟨"deadbeef", "example", .password,
   [("url", ""), ("username", "u"), ("password", "•")], [], c5Ts, c5Ts⟩

/-- C5 detail model showing `c5Secret` with the show/hide bit off. -/
def c5Model : SecretDetailModel :=
  ⟨c5Secret, "deadbeef", false, "", false, 0, buildDetailFields c5Secret,
   "", 0, false⟩

/-- C5 counterexample: the password field of `c5Secret` is sensitive with
the non-empty underlying value "•", its masked rendering is the eight-
bullet placeholder, and that placeholder contains the underlying value as
a substring — refuting the claim's "never contains the non-empty
underlying value as a substring". -/
theorem C5_detail_mask_substring_counterexample :
    ((buildDetailFields c5Secret).getD 4 (plainField "" "")).sensitive = true ∧
    ((buildDetailFields c5Secret).getD 4 (plainField "" "")).value = "•" ∧
    ((buildDetailFields c5Secret).getD 4 (plainField "" "")).value ≠ "" ∧
    renderDetailValue c5Model ((buildDetailFields c5Secret).getD 4
      (plainField "" "")) = maskPlaceholder ∧
    isSubstr ((buildDetailFields c5Secret).getD 4 (plainField "" "")).value
      maskPlaceholder := by
  exact ⟨by decide, by decide, by decide, by decide,
    ⟨[], List.replicate 7 '•', by decide⟩⟩

/-- C5 (amended): the single show/hide bit, flipped by one key, controls
every sensitive field at once — with the bit off each sensitive field
renders as the fixed eight-character placeholder, which is independent of
the underlying value (so it reveals nothing about the value, in
particular not its length); with the bit on each sensitive field renders
its exact stored value. The placeholder can contain the underlying value
as a substring only in the degenerate case where that value is itself a
run of at most eight mask bullets; any other value never occurs in the
masked rendering. -/
theorem C5_detail_masking_spec (s : Secret) (m : SecretDetailModel)
    (f : DetailField) :
    (f ∈ buildDetailFields s → f.sensitive = true →
      (m.showSensitive = false → renderDetailValue m f = maskPlaceholder) ∧
      (m.showSensitive = true → renderDetailValue m f = f.value)) ∧
    m.pressToggleSensitive.showSensitive = !m.showSensitive ∧
    maskPlaceholder.length = 8 ∧
    (∀ v : String, isSubstr v maskPlaceholder →
      v.data = List.replicate v.data.length '•' ∧ v.data.length ≤ 8) := by
  refine ⟨?_, rfl, by decide, ?_⟩
  · intro hf hs
    obtain ⟨hlive, hlabel⟩ := sensitive_field_shape s f hf hs
    constructor
    · intro hshow
      simp [renderDetailValue, hlive, hlabel, hs, hshow]
    · intro hshow
      simp [renderDetailValue, hlive, hlabel, hs, hshow]
  · intro v hv
    obtain ⟨a, b, hab⟩ := hv
    have hmask : maskPlaceholder.data = List.replicate 8 '•' := by decide
    rw [hmask] at hab
    constructor
    · apply List.eq_replicate_of_mem
      intro x hx
      have hx8 : x ∈ List.replicate 8 '•' := by
        rw [hab]
        simp only [List.mem_append]
        exact Or.inl (Or.inr hx)
      exact List.eq_of_mem_replicate hx8
    · have hlen := congrArg List.length hab
      simp [List.length_append] at hlen
      have hvl : v.length = v.data.length := rfl
      omega

/-- C5 witness: on the concrete password record, the sensitive field is
masked to the fixed placeholder while the bit is off, and one toggle
reveals the exact stored value. -/
theorem C5_detail_masking_spec_witness :
    renderDetailValue c5Model ((buildDetailFields c5Secret).getD 4
      (plainField "" "")) = maskPlaceholder ∧
    c5Model.pressToggleSensitive.showSensitive = true ∧
    renderDetailValue c5Model.pressToggleSensitive
      ((buildDetailFields c5Secret).getD 4 (plainField "" "")) = "•" := by
  have h1 := (C5_detail_masking_spec c5Secret c5Model
    ((buildDetailFields c5Secret).getD 4 (plainField "" ""))).1
    (by decide) (by decide)
  have h2 := (C5_detail_masking_spec c5Secret c5Model.pressToggleSensitive
    ((buildDetailFields c5Secret).getD 4 (plainField "" ""))).1
    (by decide) (by decide)
  refine ⟨h1.1 rfl, rfl, ?_⟩
  rw [h2.2 rfl]
  decide

/-! ### Order facts about the tag comparator and `sort.Strings` -/

theorem strLtb_irrefl : ∀ a : List Char, strLtb a a = false := by
  intro a
  induction a with
  | nil => rfl
  | cons x xs ih => simp [strLtb, ih]

theorem strLtb_asymm : ∀ a b : List Char,
    strLtb a b = true → strLtb b a = false := by
  intro a
  induction a with
  | nil => intro b h; cases b <;> simp_all [strLtb]
  | cons x xs ih =>
    intro b h
    cases b with
    | nil => simp_all [strLtb]
    | cons y ys =>
      simp only [strLtb] at h ⊢
      split_ifs at h ⊢ <;> simp_all
      all_goals omega

theorem strLtb_neg_trans : ∀ a b c : List Char,
    strLtb b a = false → strLtb c b = false → strLtb c a = false := by
  intro a
  induction a with
  | nil =>
    intro b c hba hcb
    cases b <;> cases c <;> simp_all [strLtb]
  | cons x xs ih =>
    intro b c hba hcb
    cases b with
    | nil => cases c <;> simp_all [strLtb]
    | cons y ys =>
      cases c with
      | nil => simp_all [strLtb]
      | cons z zs =>
        simp only [strLtb] at hba hcb ⊢
        split_ifs at hba hcb ⊢ <;> try omega
        all_goals simp_all
        all_goals exact ih ys zs hba hcb

theorem mem_firstSeen_aux (l : List String) :
    ∀ (acc : List String) (t : String),
    (t ∈ l.foldl (fun acc t => if acc.contains t then acc else acc ++ [t]) acc
      ↔ t ∈ acc ∨ t ∈ l) := by
  induction l with
  | nil => simp
  | cons x xs ih =>
    intro acc t
    rw [List.foldl_cons]
    by_cases hc : acc.contains x
    · rw [if_pos hc, ih]
      constructor
      · rintro (h | h)
        · exact Or.inl h
        · exact Or.inr (List.mem_cons_of_mem _ h)
      · rintro (h | h)
        · exact Or.inl h
        · rcases List.mem_cons.mp h with rfl | h
          · exact Or.inl (by simpa using hc)
          · exact Or.inr h
    · rw [if_neg hc, ih]
      simp [List.mem_append, List.mem_cons]
      tauto

theorem mem_firstSeen (l : List String) (t : String) :
    t ∈ firstSeen l ↔ t ∈ l := by
  rw [firstSeen, mem_firstSeen_aux]
  simp

theorem nodup_firstSeen_aux (l : List String) :
    ∀ acc : List String, acc.Nodup →
    (l.foldl (fun acc t => if acc.contains t then acc else acc ++ [t])
      acc).Nodup := by
  induction l with
  | nil => intro acc h; exact h
  | cons x xs ih =>
    intro acc h
    rw [List.foldl_cons]
    by_cases hc : acc.contains x
    · rw [if_pos hc]; exact ih acc h
    · rw [if_neg hc]
      apply ih
      rw [List.nodup_append]
      refine ⟨h, List.nodup_singleton x, ?_⟩
      intro a ha hx
      rcases List.mem_singleton.mp hx with rfl
      exact hc (by simpa using ha)

theorem nodup_firstSeen (l : List String) : (firstSeen l).Nodup :=
  nodup_firstSeen_aux l [] List.nodup_nil

theorem insertString_perm (x : String) (l : List String) :
    (insertString x l).Perm (x :: l) := by
  induction l with
  | nil => exact List.Perm.refl _
  | cons y ys ih =>
    rw [insertString]
    split_ifs
    · exact ((ih.cons y).trans (List.Perm.swap x y ys))
    · exact List.Perm.refl _

theorem sortStrings_perm (l : List String) : (sortStrings l).Perm l := by
  induction l with
  | nil => exact List.Perm.refl _
  | cons x xs ih =>
    exact (insertString_perm x (sortStrings xs)).trans (ih.cons x)

theorem insertString_pairwise (x : String) (l : List String)
    (h : l.Pairwise (fun a b => strLtb b.data a.data = false)) :
    (insertString x l).Pairwise (fun a b => strLtb b.data a.data = false) := by
  induction l with
  | nil => simp [insertString]
  | cons y ys ih =>
    rw [insertString]
    rcases List.pairwise_cons.mp h with ⟨hy, hys⟩
    split_ifs with hlt
    · rw [List.pairwise_cons]
      refine ⟨?_, ih hys⟩
      intro b hb
      rcases List.mem_cons.mp ((insertString_perm x ys).mem_iff.mp hb) with
        rfl | hbmem
      · exact strLtb_asymm _ _ hlt
      · exact hy b hbmem
    · rw [List.pairwise_cons]
      refine ⟨?_, h⟩
      intro b hb
      rcases List.mem_cons.mp hb with rfl | hbmem
      · simpa using hlt
      · exact strLtb_neg_trans x.data y.data b.data (by simpa using hlt)
          (hy b hbmem)

theorem sortStrings_pairwise (l : List String) :
    (sortStrings l).Pairwise (fun a b => strLtb b.data a.data = false) := by
  induction l with
  | nil => simp [sortStrings]
  | cons x xs ih => exact insertString_pairwise x _ ih

/-- The distinct tags of the task list are duplicate-free. -/
theorem collectTags_nodup (store : List Task) : (collectTags store).Nodup :=
  (sortStrings_perm _).nodup_iff.mpr (nodup_firstSeen _)

/-- A tag is collected exactly when some record of the full unfiltered set
carries it. -/
theorem collectTags_mem (store : List Task) (t : String) :
    t ∈ collectTags store ↔ ∃ r ∈ store, t ∈ r.tags := by
  rw [collectTags, (sortStrings_perm _).mem_iff, mem_firstSeen]
  simp [List.mem_flatten]

/-- The first collected tag is lexicographically least: no collected tag
compares below it. -/
theorem collectTags_first_min (store : List Task) :
    ∀ t ∈ collectTags store,
      strLtb t.data ((collectTags store).getD 0 "").data = false := by
  intro t ht
  have hp := sortStrings_pairwise (firstSeen ((store.map Task.tags).flatten))
  rw [collectTags] at ht ⊢
  cases hl : sortStrings (firstSeen ((store.map Task.tags).flatten)) with
  | nil => rw [hl] at ht; cases ht
  | cons x xs =>
    rw [hl] at ht hp
    rcases List.mem_cons.mp ht with rfl | hmem
    · simpa using strLtb_irrefl t.data
    · simpa using (List.pairwise_cons.mp hp).1 t hmem

/-- As `collectTags_nodup` for the secret list. -/
theorem collectSecretTags_nodup (secrets : List Secret) :
    (collectSecretTags secrets).Nodup :=
  (sortStrings_perm _).nodup_iff.mpr (nodup_firstSeen _)

/-- As `collectTags_mem` for the secret list. -/
theorem collectSecretTags_mem (secrets : List Secret) (t : String) :
    t ∈ collectSecretTags secrets ↔ ∃ r ∈ secrets, t ∈ r.tags := by
  rw [collectSecretTags, (sortStrings_perm _).mem_iff, mem_firstSeen]
  simp [List.mem_flatten]

/-- As `collectTags_first_min` for the secret list. -/
theorem collectSecretTags_first_min (secrets : List Secret) :
    ∀ t ∈ collectSecretTags secrets,
      strLtb t.data ((collectSecretTags secrets).getD 0 "").data = false := by
  intro t ht
  have hp := sortStrings_pairwise (firstSeen ((secrets.map Secret.tags).flatten))
  rw [collectSecretTags] at ht ⊢
  cases hl : sortStrings (firstSeen ((secrets.map Secret.tags).flatten)) with
  | nil => rw [hl] at ht; cases ht
  | cons x xs =>
    rw [hl] at ht hp
    rcases List.mem_cons.mp ht with rfl | hmem
    · simpa using strLtb_irrefl t.data
    · simpa using (List.pairwise_cons.mp hp).1 t hmem

end ZVault


namespace ZVault

theorem taskAdvance_step01 (m : TaskListModel) (h : m.filter = taskFilterAll) :
    m.advanceFilter = { m with filter := taskFilterPending } := by
  simp [TaskListModel.advanceFilter, h, taskFilterAll, taskFilterPending, taskFilterDone, taskFilterByTag, taskFilterCount]

theorem taskAdvance_step12 (m : TaskListModel)
    (h : m.filter = taskFilterPending) :
    m.advanceFilter = { m with filter := taskFilterDone } := by
  simp [TaskListModel.advanceFilter, h, taskFilterAll, taskFilterPending, taskFilterDone, taskFilterByTag, taskFilterCount]

theorem taskAdvance_step23 (m : TaskListModel) (h : m.filter = taskFilterDone)
    (htags : 0 < m.tags.length) :
    m.advanceFilter = { m with filter := taskFilterByTag, tagIndex := 0 } := by
  simp [TaskListModel.advanceFilter, h, taskFilterAll, taskFilterPending, taskFilterDone, taskFilterByTag, taskFilterCount, htags.ne']

theorem taskAdvance_step20 (m : TaskListModel) (h : m.filter = taskFilterDone)
    (htags : m.tags.length = 0) :
    m.advanceFilter = { m with filter := taskFilterAll } := by
  simp [TaskListModel.advanceFilter, h, taskFilterAll, taskFilterPending, taskFilterDone, taskFilterByTag, taskFilterCount, htags]

theorem taskAdvance_stepTag (m : TaskListModel)
    (h : m.filter = taskFilterByTag) (hlt : m.tagIndex + 1 < m.tags.length) :
    m.advanceFilter = { m with tagIndex := m.tagIndex + 1 } := by
  simp [TaskListModel.advanceFilter, h, taskFilterAll, taskFilterPending, taskFilterDone, taskFilterByTag, taskFilterCount]
  omega

theorem taskAdvance_stepWrap (m : TaskListModel)
    (h : m.filter = taskFilterByTag) (hge : m.tags.length ≤ m.tagIndex + 1) :
    m.advanceFilter = { m with tagIndex := 0, filter := taskFilterAll } := by
  simp [TaskListModel.advanceFilter, h, taskFilterAll, taskFilterPending, taskFilterDone, taskFilterByTag, taskFilterCount, hge]

end ZVault

namespace ZVault

theorem taskAdvance_byTag_run (K : Nat) :
    ∀ j, j < K → ∀ m : TaskListModel, m.filter = taskFilterByTag →
    m.tagIndex = 0 → m.tags.length = K →
    ((TaskListModel.advanceFilter)^[j] m).filter = taskFilterByTag ∧
    ((TaskListModel.advanceFilter)^[j] m).tagIndex = j ∧
    ((TaskListModel.advanceFilter)^[j] m).tags = m.tags := by
  intro j
  induction j with
  | zero => intro _ m h1 h2 _; simp [Function.iterate_zero, h1, h2]
  | succ j ih =>
    intro hj m h1 h2 hK
    obtain ⟨g1, g2, g3⟩ := ih (by omega) m h1 h2 hK
    rw [Function.iterate_succ_apply']
    have hlt : ((TaskListModel.advanceFilter)^[j] m).tagIndex + 1 <
        ((TaskListModel.advanceFilter)^[j] m).tags.length := by
      rw [g2, g3, hK]; omega
    rw [taskAdvance_stepTag _ g1 hlt]
    exact ⟨g1, by rw [g2], g3⟩

theorem taskAdvance_trace (m : TaskListModel) (hm : m.filter = taskFilterAll) :
    ((TaskListModel.advanceFilter)^[1] m = { m with filter := taskFilterPending }) ∧
    ((TaskListModel.advanceFilter)^[2] m = { m with filter := taskFilterDone }) ∧
    (0 < m.tags.length → (TaskListModel.advanceFilter)^[3] m =
      { m with filter := taskFilterByTag, tagIndex := 0 }) ∧
    (m.tags.length = 0 → (TaskListModel.advanceFilter)^[3] m =
      { m with filter := taskFilterAll }) := by
  have h1 : (TaskListModel.advanceFilter)^[1] m =
      { m with filter := taskFilterPending } := by
    simp [Function.iterate_one, taskAdvance_step01 m hm]
  have h2 : (TaskListModel.advanceFilter)^[2] m =
      { m with filter := taskFilterDone } := by
    rw [Function.iterate_succ_apply', h1]
    exact taskAdvance_step12 _ rfl
  refine ⟨h1, h2, ?_, ?_⟩
  · intro htags
    rw [Function.iterate_succ_apply', h2]
    exact taskAdvance_step23 _ rfl htags
  · intro htags
    rw [Function.iterate_succ_apply', h2]
    exact taskAdvance_step20 _ rfl htags

end ZVault

namespace ZVault

theorem secretAdvance_stepOrd (s : SecretListModel) (k : Nat) (hk : k < 4)
    (h : s.filter = k) : s.advanceFilter = { s with filter := k + 1 } := by
  unfold SecretListModel.advanceFilter
  rw [h]
  rw [if_neg (by simp [filterByTag]; omega : ¬ (k = filterByTag))]
  have hmod : (k + 1) % filterCount = k + 1 :=
    Nat.mod_eq_of_lt (by simp [filterCount]; omega)
  simp only [hmod]
  rw [if_neg (by simp [filterByTag]; omega :
    ¬ (k + 1 = filterByTag ∧ s.tags.length = 0))]
  rw [if_neg (by simp [filterByTag]; omega : ¬ (k + 1 = filterByTag))]

theorem secretAdvance_step45 (s : SecretListModel) (h : s.filter = filterNote)
    (htags : 0 < s.tags.length) :
    s.advanceFilter = { s with filter := filterByTag, tagIndex := 0 } := by
  simp [SecretListModel.advanceFilter, h, filterAll, filterNote, filterByTag,
    filterCount, htags.ne']

theorem secretAdvance_step40 (s : SecretListModel) (h : s.filter = filterNote)
    (htags : s.tags.length = 0) :
    s.advanceFilter = { s with filter := filterAll } := by
  simp [SecretListModel.advanceFilter, h, filterAll, filterNote, filterByTag,
    filterCount, htags]

theorem secretAdvance_stepTag (s : SecretListModel)
    (h : s.filter = filterByTag) (hlt : s.tagIndex + 1 < s.tags.length) :
    s.advanceFilter = { s with tagIndex := s.tagIndex + 1 } := by
  simp [SecretListModel.advanceFilter, h, filterByTag]
  omega

theorem secretAdvance_stepWrap (s : SecretListModel)
    (h : s.filter = filterByTag) (hge : s.tags.length ≤ s.tagIndex + 1) :
    s.advanceFilter = { s with tagIndex := 0, filter := filterAll } := by
  simp [SecretListModel.advanceFilter, h, filterByTag, filterAll, hge]

theorem secretAdvance_byTag_run (K : Nat) :
    ∀ j, j < K → ∀ s : SecretListModel, s.filter = filterByTag →
    s.tagIndex = 0 → s.tags.length = K →
    ((SecretListModel.advanceFilter)^[j] s).filter = filterByTag ∧
    ((SecretListModel.advanceFilter)^[j] s).tagIndex = j ∧
    ((SecretListModel.advanceFilter)^[j] s).tags = s.tags := by
  intro j
  induction j with
  | zero => intro _ s h1 h2 _; simp [Function.iterate_zero, h1, h2]
  | succ j ih =>
    intro hj s h1 h2 hK
    obtain ⟨g1, g2, g3⟩ := ih (by omega) s h1 h2 hK
    rw [Function.iterate_succ_apply']
    have hlt : ((SecretListModel.advanceFilter)^[j] s).tagIndex + 1 <
        ((SecretListModel.advanceFilter)^[j] s).tags.length := by
      rw [g2, g3, hK]; omega
    rw [secretAdvance_stepTag _ g1 hlt]
    exact ⟨g1, by rw [g2], g3⟩

theorem secretAdvance_trace (s : SecretListModel) (hs : s.filter = filterAll) :
    ((SecretListModel.advanceFilter)^[4] s = { s with filter := filterNote }) ∧
    (0 < s.tags.length → (SecretListModel.advanceFilter)^[5] s =
      { s with filter := filterByTag, tagIndex := 0 }) ∧
    (s.tags.length = 0 → (SecretListModel.advanceFilter)^[5] s =
      { s with filter := filterAll }) ∧
    (∀ j, 0 < j → j < 5 →
      ((SecretListModel.advanceFilter)^[j] s).filter = j) := by
  have h1 : (SecretListModel.advanceFilter)^[1] s =
      { s with filter := 1 } := by
    simp only [Function.iterate_one]
    exact secretAdvance_stepOrd s 0 (by omega) hs
  have h2 : (SecretListModel.advanceFilter)^[2] s =
      { s with filter := 2 } := by
    rw [Function.iterate_succ_apply', h1]
    exact secretAdvance_stepOrd _ 1 (by omega) rfl
  have h3 : (SecretListModel.advanceFilter)^[3] s =
      { s with filter := 3 } := by
    rw [Function.iterate_succ_apply', h2]
    exact secretAdvance_stepOrd _ 2 (by omega) rfl
  have h4 : (SecretListModel.advanceFilter)^[4] s =
      { s with filter := 4 } := by
    rw [Function.iterate_succ_apply', h3]
    exact secretAdvance_stepOrd _ 3 (by omega) rfl
  refine ⟨h4, ?_, ?_, ?_⟩
  · intro htags
    rw [Function.iterate_succ_apply', h4]
    exact secretAdvance_step45 _ rfl htags
  · intro htags
    rw [Function.iterate_succ_apply', h4]
    exact secretAdvance_step40 _ rfl htags
  · intro j hj1 hj5
    interval_cases j
    · rw [h1]
    · rw [h2]
    · rw [h3]
    · rw [h4]

end ZVault

namespace ZVault

/-- C3: for every task-list state on the "all" filter whose distinct-tag
set has size K, advancing the filter K + N + 1 times returns it to "all"
when K > 0, where N = 2 is the number of ordinary buckets beyond "all"
(pending, done); when K = 0 the cycle period is exactly N + 1 = 3 because
the by-tag state is skipped; the by-tag state is entered at advance 3 with
the first collected tag selected and advance 3 + j visits tag j. The same
holds for the secret-list filter with its N = 4 ordinary type buckets
(password, api key, ssh key, note): period K + 5 for K > 0 and exactly 5
for K = 0. The tag set is the duplicate-free set of tags over the full
unfiltered record set, and its first element is lexicographically least
(no collected tag compares below it), for both lists. -/
theorem C3_filter_cycle (m : TaskListModel) (s : SecretListModel)
    (store : List Task) (secrets : List Secret)
    (hm : m.filter = taskFilterAll) (hs : s.filter = filterAll) :
    (0 < m.tags.length →
      ((TaskListModel.advanceFilter)^[m.tags.length + 3] m).filter =
        taskFilterAll) ∧
    (m.tags.length = 0 →
      ((TaskListModel.advanceFilter)^[3] m).filter = taskFilterAll ∧
      ∀ j, 0 < j → j < 3 →
        ((TaskListModel.advanceFilter)^[j] m).filter ≠ taskFilterAll) ∧
    (∀ j, j < m.tags.length →
      ((TaskListModel.advanceFilter)^[3 + j] m).filter = taskFilterByTag ∧
      ((TaskListModel.advanceFilter)^[3 + j] m).tagIndex = j ∧
      ((TaskListModel.advanceFilter)^[3 + j] m).tags = m.tags) ∧
    (0 < m.tags.length →
      (((TaskListModel.advanceFilter)^[3] m).taskFilter).tag =
        m.tags.getD 0 "") ∧
    (0 < s.tags.length →
      ((SecretListModel.advanceFilter)^[s.tags.length + 5] s).filter =
        filterAll) ∧
    (s.tags.length = 0 →
      ((SecretListModel.advanceFilter)^[5] s).filter = filterAll ∧
      ∀ j, 0 < j → j < 5 →
        ((SecretListModel.advanceFilter)^[j] s).filter ≠ filterAll) ∧
    (∀ j, j < s.tags.length →
      ((SecretListModel.advanceFilter)^[5 + j] s).filter = filterByTag ∧
      ((SecretListModel.advanceFilter)^[5 + j] s).tagIndex = j ∧
      ((SecretListModel.advanceFilter)^[5 + j] s).tags = s.tags) ∧
    (collectTags store).Nodup ∧
    (∀ t, t ∈ collectTags store ↔ ∃ r ∈ store, t ∈ r.tags) ∧
    (∀ t ∈ collectTags store,
      strLtb t.data ((collectTags store).getD 0 "").data = false) ∧
    (collectSecretTags secrets).Nodup ∧
    (∀ t, t ∈ collectSecretTags secrets ↔ ∃ r ∈ secrets, t ∈ r.tags) ∧
    (∀ t ∈ collectSecretTags secrets,
      strLtb t.data ((collectSecretTags secrets).getD 0 "").data = false) := by
  have tr := taskAdvance_trace m hm
  have trS := secretAdvance_trace s hs
  refine ⟨?_, ?_, ?_, ?_, ?_, ?_, ?_, collectTags_nodup store,
    collectTags_mem store, collectTags_first_min store,
    collectSecretTags_nodup secrets, collectSecretTags_mem secrets,
    collectSecretTags_first_min secrets⟩
  · -- task: K + 3 advances return to "all" when K > 0
    intro htags
    obtain ⟨K', hK'⟩ : ∃ K', m.tags.length = K' + 1 :=
      ⟨m.tags.length - 1, by omega⟩
    have h3 := tr.2.2.1 htags
    rw [hK', Function.iterate_add_apply, h3]
    set s3 : TaskListModel :=
      { m with filter := taskFilterByTag, tagIndex := 0 } with hs3
    rw [Function.iterate_succ_apply']
    by_cases hK0 : K' = 0
    · subst hK0
      rw [Function.iterate_zero_apply]
      rw [taskAdvance_stepWrap s3 rfl (by simp [hs3, hK'])]
    · obtain ⟨g1, g2, g3⟩ := taskAdvance_byTag_run (K' + 1) K' (by omega) s3
        rfl rfl (by simp [hs3, hK'])
      rw [taskAdvance_stepWrap _ g1 (by rw [g2, g3]; simp [hs3, hK'])]
  · -- task: with no tags the cycle period is exactly 3
    intro htags
    refine ⟨by rw [tr.2.2.2 htags], ?_⟩
    intro j hj1 hj3
    interval_cases j
    · rw [tr.1]; simp [taskFilterPending, taskFilterAll]
    · rw [tr.2.1]; simp [taskFilterDone, taskFilterAll]
  · -- task: the by-tag walk visits tag j at advance 3 + j
    intro j hj
    have h3 := tr.2.2.1 (by omega)
    rw [Nat.add_comm 3 j, Function.iterate_add_apply, h3]
    exact taskAdvance_byTag_run m.tags.length j hj _ rfl rfl rfl
  · -- task: entering by-tag selects the first collected tag
    intro htags
    rw [tr.2.2.1 htags]
    simp [TaskListModel.taskFilter, taskFilterByTag, taskFilterPending,
      taskFilterDone, htags]
  · -- secret: K + 5 advances return to "all" when K > 0
    intro htags
    obtain ⟨K', hK'⟩ : ∃ K', s.tags.length = K' + 1 :=
      ⟨s.tags.length - 1, by omega⟩
    have h5 := trS.2.1 htags
    rw [hK', Function.iterate_add_apply, h5]
    set s5 : SecretListModel :=
      { s with filter := filterByTag, tagIndex := 0 } with hs5
    rw [Function.iterate_succ_apply']
    by_cases hK0 : K' = 0
    · subst hK0
      rw [Function.iterate_zero_apply]
      rw [secretAdvance_stepWrap s5 rfl (by simp [hs5, hK'])]
    · obtain ⟨g1, g2, g3⟩ := secretAdvance_byTag_run (K' + 1) K' (by omega) s5
        rfl rfl (by simp [hs5, hK'])
      rw [secretAdvance_stepWrap _ g1 (by rw [g2, g3]; simp [hs5, hK'])]
  · -- secret: with no tags the cycle period is exactly 5
    intro htags
    refine ⟨by rw [trS.2.2.1 htags], ?_⟩
    intro j hj1 hj5
    rw [trS.2.2.2 j hj1 hj5]
    simp [filterAll]
    omega
  · -- secret: the by-tag walk visits tag j at advance 5 + j
    intro j hj
    have h5 := trS.2.1 (by omega)
    rw [Nat.add_comm 5 j, Function.iterate_add_apply, h5]
    exact secretAdvance_byTag_run s.tags.length j hj _ rfl rfl rfl

end ZVault

namespace ZVault
def c3TaskModel : TaskListModel := ⟨[], 0, 0, ["home", "work"], 0, .none, 0⟩
def c3SecretModel : SecretListModel := ⟨0, 0, [], false⟩
def c3Store : List Task :=
  [⟨"aaaaaaaa", "A", false, .none, none, ["work"], 0, none⟩,
   ⟨"bbbbbbbb", "B", false, .none, none, ["home"], 0, none⟩]

theorem C3_filter_cycle_witness :
    ((TaskListModel.advanceFilter)^[5] c3TaskModel).filter = taskFilterAll ∧
    ((TaskListModel.advanceFilter)^[3] c3TaskModel).filter = taskFilterByTag ∧
    (((TaskListModel.advanceFilter)^[3] c3TaskModel).taskFilter).tag = "home" ∧
    ((SecretListModel.advanceFilter)^[5] c3SecretModel).filter = filterAll ∧
    ((SecretListModel.advanceFilter)^[2] c3SecretModel).filter ≠ filterAll ∧
    ("home" ∈ collectTags c3Store ↔ ∃ r ∈ c3Store, "home" ∈ r.tags) := by
  have h := C3_filter_cycle c3TaskModel c3SecretModel c3Store [] rfl rfl
  exact ⟨h.1 (by decide), (h.2.2.1 0 (by decide)).1,
    (h.2.2.2.1 (by decide)).trans (by decide),
    (h.2.2.2.2.2.1 rfl).1,
    (h.2.2.2.2.2.1 rfl).2 2 (by decide) (by decide),
    h.2.2.2.2.2.2.2.2.1 "home"⟩
end ZVault

namespace ZVault

def dueTag : Option Int → Nat
  | some _ => 0
  | none => 1

def dueVal : Option Int → Int
  | some x => x
  | none => 0

def keyLt (a b : Task) : Prop :=
  (if a.done then 1 else 0) < (if b.done then (1 : Nat) else 0) ∨
  ((if a.done then (1 : Nat) else 0) = (if b.done then 1 else 0) ∧
   (priorityRank b.priority < priorityRank a.priority ∨
    (priorityRank a.priority = priorityRank b.priority ∧
     (dueTag a.dueDate < dueTag b.dueDate ∨
      (dueTag a.dueDate = dueTag b.dueDate ∧
       dueVal a.dueDate < dueVal b.dueDate)))))

theorem taskLess_iff (a b : Task) : taskLess a b = true ↔ keyLt a b := by
  unfold taskLess keyLt
  cases hda : a.done <;> cases hdb : b.done <;>
    by_cases hp : priorityRank a.priority = priorityRank b.priority <;>
    cases hxa : a.dueDate <;> cases hxb : b.dueDate <;>
    simp [hda, hdb, hp, dueTag, dueVal] <;>
    omega

end ZVault

namespace ZVault

theorem keyLt_asymm (a b : Task) (h : keyLt a b) : ¬ keyLt b a := by
  unfold keyLt at h ⊢
  cases ha : a.done <;> cases hb : b.done <;>
    rw [ha, hb] at h <;> simp at h ⊢ <;> omega

theorem keyLt_cotrans (a b c : Task) (h : keyLt c a) :
    keyLt c b ∨ keyLt b a := by
  unfold keyLt at h ⊢
  cases ha : a.done <;> cases hb : b.done <;> cases hc : c.done <;>
    rw [ha, hc] at h <;> simp at h ⊢ <;> omega

theorem taskLess_false_iff (a b : Task) :
    taskLess a b = false ↔ ¬ keyLt a b := by
  rw [← taskLess_iff]
  cases taskLess a b <;> simp

theorem taskLess_asymm (a b : Task) (h : taskLess a b = true) :
    taskLess b a = false :=
  (taskLess_false_iff b a).mpr (keyLt_asymm a b ((taskLess_iff a b).mp h))

theorem taskLess_neg_trans (a b c : Task) (hba : taskLess b a = false)
    (hcb : taskLess c b = false) : taskLess c a = false := by
  rw [taskLess_false_iff] at hba hcb ⊢
  intro hca
  rcases keyLt_cotrans a b c hca with h | h
  · exact hcb h
  · exact hba h

def dueLe : Option Int → Option Int → Prop
  | some x, some y => x ≤ y
  | some _, none => True
  | none, none => True
  | none, some _ => False

def specLe (a b : Task) : Prop :=
  (a.done = false ∧ b.done = true) ∨
  (a.done = b.done ∧
    (priorityRank b.priority < priorityRank a.priority ∨
     (priorityRank a.priority = priorityRank b.priority ∧
      dueLe a.dueDate b.dueDate)))

theorem specLe_iff (a b : Task) : specLe a b ↔ taskLess b a = false := by
  rw [taskLess_false_iff]
  unfold specLe keyLt
  cases hda : a.done <;> cases hdb : b.done <;>
    cases hxa : a.dueDate <;> cases hxb : b.dueDate <;>
    simp [hda, hdb, hxa, hxb, dueTag, dueVal, dueLe] <;>
    omega

theorem insertTask_perm (x : Task) (l : List Task) :
    (insertTask x l).Perm (x :: l) := by
  induction l with
  | nil => exact List.Perm.refl _
  | cons y ys ih =>
    rw [insertTask]
    split_ifs
    · exact ((ih.cons y).trans (List.Perm.swap x y ys))
    · exact List.Perm.refl _

theorem sortTasks_perm (l : List Task) : (sortTasks l).Perm l := by
  induction l with
  | nil => exact List.Perm.refl _
  | cons x xs ih =>
    exact (insertTask_perm x (sortTasks xs)).trans (ih.cons x)

theorem insertTask_pairwise (x : Task) (l : List Task)
    (h : l.Pairwise (fun a b => taskLess b a = false)) :
    (insertTask x l).Pairwise (fun a b => taskLess b a = false) := by
  induction l with
  | nil => simp [insertTask]
  | cons y ys ih =>
    rw [insertTask]
    rcases List.pairwise_cons.mp h with ⟨hy, hys⟩
    split_ifs with hlt
    · rw [List.pairwise_cons]
      refine ⟨?_, ih hys⟩
      intro b hb
      rcases List.mem_cons.mp ((insertTask_perm x ys).mem_iff.mp hb) with
        rfl | hbmem
      · exact taskLess_asymm _ _ hlt
      · exact hy b hbmem
    · rw [List.pairwise_cons]
      refine ⟨?_, h⟩
      intro b hb
      rcases List.mem_cons.mp hb with rfl | hbmem
      · simpa using hlt
      · exact taskLess_neg_trans x y b (by simpa using hlt) (hy b hbmem)

theorem sortTasks_pairwise (l : List Task) :
    (sortTasks l).Pairwise (fun a b => taskLess b a = false) := by
  induction l with
  | nil => simp [sortTasks]
  | cons x xs ih => exact insertTask_pairwise x _ ih

theorem filter_insertTask_neg (p : Task → Bool) (x : Task)
    (hx : p x = false) :
    ∀ l, (insertTask x l).filter p = l.filter p := by
  intro l
  induction l with
  | nil => simp [insertTask, hx]
  | cons y ys ih =>
    rw [insertTask]
    split_ifs
    · simp only [List.filter_cons, ih]
    · simp [List.filter_cons, hx]

theorem filter_insertTask_pos (p : Task → Bool) (x : Task) (hx : p x = true)
    (hall : ∀ z, p z = true → taskLess z x = false) :
    ∀ l, (insertTask x l).filter p = x :: l.filter p := by
  intro l
  induction l with
  | nil => simp [insertTask, hx]
  | cons y ys ih =>
    rw [insertTask]
    split_ifs with hlt
    · have hpy : p y = false := by
        cases hpy : p y
        · rfl
        · rw [hall y hpy] at hlt; cases hlt
      simp only [List.filter_cons, hpy, ih]
      simp [hpy]
    · simp [List.filter_cons, hx]

theorem sortTasks_filter (p : Task → Bool)
    (hEq : ∀ a b, p a = true → p b = true → taskLess a b = false) :
    ∀ l, (sortTasks l).filter p = l.filter p := by
  intro l
  induction l with
  | nil => rfl
  | cons x xs ih =>
    rw [sortTasks]
    cases hpx : p x
    · rw [filter_insertTask_neg p x hpx, ih]
      simp [List.filter_cons, hpx]
    · rw [filter_insertTask_pos p x hpx (fun z hz => hEq z x hz hpx), ih]
      simp [List.filter_cons, hpx]

end ZVault

namespace ZVault

def c2T0 : Task := ⟨"t0", "t0", false, .none, none, [], 0, none⟩
def c2T1 : Task := ⟨"t1", "t1", false, .high, none, [], 0, none⟩
def c2T2 : Task := ⟨"t2", "t2", true, .low, none, [], 0, none⟩
def c2T3 : Task := ⟨"t3", "t3", false, .high, none, [], 0, none⟩
def c2Input : List Task := [c2T0, c2T1, c2T2, c2T3]

/-- C2 counterexample: for the claim's four-task input (priorities
[none, high, low, high], done flags [false, false, true, false]) the
sorted output is [high, high, none-priority, done]; the task following
the two highs has priority none, not low — the low-priority task is the
done one and sorts last, so the claim's "then low, then the done task
last" misdescribes the third position. -/
theorem C2_sort_example_counterexample :
    sortTasks c2Input = [c2T1, c2T3, c2T0, c2T2] ∧
    ((sortTasks c2Input).getD 2 c2T0).priority ≠ Priority.low ∧
    ((sortTasks c2Input).getD 2 c2T0).priority = Priority.none ∧
    c2T2.priority = Priority.low ∧ c2T2.done = true := by
  refine ⟨by decide, by decide, by decide, by decide, by decide⟩

/-- C2 (amended): `sortTasks` is a stable sort ordering every task list
by: pending before done; within a completion tier priority descending
(high, medium, low, none); within equal priority ascending due date with
missing due dates last (`specLe`, worded from the spec). Permutation and
pairwise order hold for every list; stability is the filter
characterisation: any set of pairwise-tied tasks keeps its original
relative order. For the claim's four-task input the output is the two
high-priority tasks in original order, then the priority-none pending
task, then the done low-priority task last. -/
theorem C2_sortTasks_spec (l : List Task) (p : Task → Bool) :
    (sortTasks l).Perm l ∧
    (sortTasks l).Pairwise specLe ∧
    ((∀ a b, p a = true → p b = true → taskLess a b = false) →
      (sortTasks l).filter p = l.filter p) ∧
    sortTasks c2Input = [c2T1, c2T3, c2T0, c2T2] := by
  refine ⟨sortTasks_perm l, ?_, fun h => sortTasks_filter p h l, by decide⟩
  exact (sortTasks_pairwise l).imp fun hab => (specLe_iff _ _).mpr hab

/-- C1 counterexample: the claim says `Generate` "strips whitespace", but
the source strips only space characters. With a tab inside an otherwise
valid secret, whitespace-stripping semantics (`generateSpecWhitespace`,
modelled from the spec's words) would produce the code, while the program
fails the base32 decode and returns the error. -/
theorem C1_whitespace_counterexample :
    generate 0 "JBSWY3DP\tEHPK3PXP" = none ∧
    generateSpecWhitespace 0 "JBSWY3DP\tEHPK3PXP" = some ("282760", 30) := by
  exact ⟨by rfl, by rfl⟩

/-- The key bytes of the common test secret JBSWY3DPEHPK3PXP
("Hello!" followed by 0xDEADBEEF). -/
def c1Key : List Nat :=
  "Hello!".data.map Char.toNat ++ [0xDE, 0xAD, 0xBE, 0xEF]

/-- C1 (amended): `Generate(secret)` strips spaces (not all whitespace),
uppercases, pads with '=' to a multiple of 8, base32-decodes — an invalid
input returns the error before any HMAC work — then computes HMAC-SHA1
over the 8-byte big-endian counter ⌊t/30⌋, dynamically truncates per
RFC 4226, formats the low 6 digits zero-padded, and returns
remaining = 30 − (t mod 30) ∈ [1, 30]. In particular at unix time 0 the
secret "JBSWY3DPEHPK3PXP" (with spaces, or lowercased) yields "282760",
and the base32 encoding of the RFC 6238 key "12345678901234567890" at
t = 59 yields "287082" with remaining 1. -/
theorem C1_totp_generate_spec (t : Nat) (s : String) :
    (∀ key, decodeSecret s = some key →
      generate t s = some (hotp key (t / period), period - t % period)) ∧
    (decodeSecret s = none → generate t s = none) ∧
    (∀ c r, generate t s = some (c, r) → 1 ≤ r ∧ r ≤ 30) ∧
    generate 0 "JBSWY3DPEHPK3PXP" = some ("282760", 30) ∧
    generate 0 "JBSW Y3DP EHPK 3PXP" = some ("282760", 30) ∧
    generate 0 "jbswy3dpehpk3pxp" = some ("282760", 30) ∧
    decodeSecret "GEZDGNBVGY3TQOJQGEZDGNBVGY3TQOJQ" =
      some ("12345678901234567890".data.map Char.toNat) ∧
    generate 59 "GEZDGNBVGY3TQOJQGEZDGNBVGY3TQOJQ" = some ("287082", 1) := by
  refine ⟨?_, ?_, ?_, by rfl, by rfl, by rfl, by rfl, by rfl⟩
  · intro key h
    simp [generate, h]
  · intro h
    simp [generate, h]
  · intro c r h
    unfold generate at h
    cases hd : decodeSecret s with
    | none => rw [hd] at h; cases h
    | some key =>
      rw [hd] at h
      simp only [Option.some.injEq, Prod.mk.injEq] at h
      have hmod : t % period < period := Nat.mod_lt t (by decide)
      have hr : r = period - t % period := h.2.symm
      rw [hr]
      unfold period at hmod ⊢
      omega

/-- C1 witness: the spec theorem applied at the concrete inputs — the
decoded key of the standard test secret feeds HOTP at counter 0; an
undecodable secret yields the error with no HMAC; the RFC 6238 vector's
remaining seconds lie in [1, 30]. -/
theorem C1_totp_generate_spec_witness :
    generate 0 "JBSWY3DPEHPK3PXP" = some (hotp c1Key 0, 30) ∧
    generate 0 "!" = none ∧
    (1 ≤ 1 ∧ 1 ≤ 30) := by
  refine ⟨?_, ?_, ?_⟩
  · exact (C1_totp_generate_spec 0 "JBSWY3DPEHPK3PXP").1 c1Key (by rfl)
  · exact (C1_totp_generate_spec 0 "!").2.1 (by rfl)
  · exact (C1_totp_generate_spec 59 "GEZDGNBVGY3TQOJQGEZDGNBVGY3TQOJQ").2.2.1
      "287082" 1 (by rfl)

/-- C2 witness: the sort theorem applied to the concrete four-task input
with the tied pair of high-priority tasks, whose original relative order
survives in the output. -/
theorem C2_sortTasks_spec_witness :
    (sortTasks c2Input).Perm c2Input ∧
    (sortTasks c2Input).filter (fun t => t == c2T1 || t == c2T3) =
      c2Input.filter (fun t => t == c2T1 || t == c2T3) ∧
    (sortTasks c2Input).filter (fun t => t == c2T1 || t == c2T3) =
      [c2T1, c2T3] := by
  have h := C2_sortTasks_spec c2Input (fun t => t == c2T1 || t == c2T3)
  refine ⟨h.1, h.2.2.1 ?_, by decide⟩
  intro a b ha hb
  simp at ha hb
  rcases ha with rfl | rfl <;> rcases hb with rfl | rfl <;> decide

end ZVault
